import Mathlib

/-!
# Verification of the turn/activity engine of `src/logic.ts`

This file gives a shallow embedding of the game-logic module of the
dungeon-crawl repository (`src/logic.ts`) and proves/refutes the frozen
claims about it.

Modelling conventions:
* JS numbers that only ever hold integers are modelled as `Int`
  (coordinates, stats, gold) or `Nat` (ids, levels, times, delays).
* `Math.random()` draws are passed in explicitly as rationals in `[0,1)`;
  a comparison such as `Math.random()*6 < 3` becomes `r * 6 < 3` over `ℚ`.
* `Array.prototype.splice(indexOf(x), 1)` is embedded faithfully,
  including the JS behaviour for a missing element: `indexOf` returns
  `-1` and `splice(-1, 1)` removes the *last* element of the array.
* External collaborators that live in repository files not present under
  `src/` (dungeon generation, pathfinding, move enumeration, monster AI
  helpers, item creation) are modelled from the spec as fields of an
  explicit environment `Env`, or as plain data lookups where the spec
  fixes their meaning (actor-at-cell, room-at-cell, dungeon-by-id).
* `Rune.gameTime()` is the `now` field of `Env`; `Rune.gameOver()` is
  modelled by setting the bookkeeping flag `gameOverSignalled`.
-/

namespace DGlee

/-- A 2-d grid position. -/
structure Point where
  x : Int
  y : Int
deriving DecidableEq

/-- The `goldOnKill` range `{min, max}` carried by some monsters. -/
structure GoldRange where
  lo : Int
  hi : Int
deriving DecidableEq

/-- An inventory item; `itemKind` models the TS `ItemType` string union. -/
structure Item where
  id : Nat
  itemKind : String
deriving DecidableEq

/-- A room of a dungeon (the fields the engine reads). -/
structure Room where
  x : Int
  y : Int
  width : Int
  height : Int
  start : Bool
  stairsDown : Bool
  discovered : Bool
deriving DecidableEq

/-- A door of a dungeon.  The TS field `open` is renamed `opened`
(`open` is a Lean keyword). -/
structure Door where
  x : Int
  y : Int
  opened : Bool
deriving DecidableEq

/-- A chest of a dungeon; `itemKind` is the configured drop. -/
structure Chest where
  x : Int
  y : Int
  opened : Bool
  itemKind : String
deriving DecidableEq

/-- An actor (hero or monster), with exactly the fields `logic.ts`
reads and writes. -/
structure Actor where
  id : Nat
  playerId : Option String
  dungeonId : Nat
  x : Int
  y : Int
  lx : Int
  ly : Int
  lt : Nat
  good : Bool
  facingRight : Bool
  sprite : Int
  attack : Int
  modAttack : Int
  defense : Int
  modDefense : Int
  health : Int
  maxHealth : Int
  magic : Int
  maxMagic : Int
  moves : Int
  maxMoves : Int
  actions : Int
  goldOnKill : Option GoldRange
deriving DecidableEq

/-- A dungeon: the mutable container the engine is handed by id. -/
structure Dungeon where
  id : Nat
  level : Nat
  rooms : List Room
  doors : List Door
  chests : List Chest
  actors : List Actor
deriving DecidableEq

/-- The TS `GameEventType` string union. `open` is renamed `openDoor`
(`open` is a Lean keyword). -/
inductive EventType where
  | damage | openDoor | step | died | melee | shoot | magic | heal
  | turnChange | stairs | goldLoot | itemLoot | chestOpen | useItem
deriving DecidableEq

/-- A renderer-facing `GameEvent`. -/
structure GameEvent where
  eventKind : EventType
  x : Int
  y : Int
  value : Int
  actorId : Int
  delay : Nat
  item : Option String
deriving DecidableEq

/-- The TS `GameMoveType` string union; `open` renamed `openDoor`. -/
inductive GameMoveType where
  | move | attack | openDoor | heal | shoot | magic | chest
deriving DecidableEq

/-- A candidate move produced by the external move enumerator. -/
structure GameMove where
  x : Int
  y : Int
  sx : Int
  sy : Int
  moveKind : GameMoveType
  depth : Int
deriving DecidableEq

/-- The single in-flight activity. -/
structure Activity where
  dungeonId : Nat
  actorId : Nat
  startTime : Nat
  tx : Int
  ty : Int
deriving DecidableEq

/-- A save-game slot. -/
structure SaveGame where
  savedAt : Nat
  items : List Item
  level : Nat
  desc : String
  gold : Int
deriving DecidableEq

/-- Per-player persisted data (`Persisted`). -/
structure Persisted where
  saves : List SaveGame
deriving DecidableEq

/-- Per-player bookkeeping (`PlayerInfo`); `classKind` models the TS
`PlayerClass` string union. -/
structure PlayerInfo where
  dungeonId : Nat
  classKind : String
  actorId : Nat
  name : String
deriving DecidableEq

/-- The global `GameState`.  `Record<string, _>` objects become
association lists; `gameOverSignalled` is bookkeeping for the external
`Rune.gameOver()` call. -/
structure GameState where
  persisted : List (String × Persisted)
  gold : Int
  items : List Item
  nextId : Nat
  playerOrder : List String
  deadHeroes : List Actor
  playerInfo : List (String × PlayerInfo)
  whoseTurn : String
  dungeons : List Dungeon
  possibleMoves : List GameMove
  currentActivity : Option Activity
  lastUpdate : Nat
  events : List GameEvent
  evilTurnMax : Int
  whoseSave : Option String
  saveDesc : Option String
  time : Nat
  saveLevel : Nat
  gameOverSignalled : Bool
deriving DecidableEq

/-! ## Data lookups

These are queries provided by `dungeon.ts` (not present under `src/`);
each is modelled from the spec's collaborator contracts (§6: actor-at-cell,
room-at-cell, rooms-at-cell, chest-at-cell, dungeon-by-id). -/

/-- Modelled from the spec: the dungeon-by-id lookup `getDungeonById`. -/
def getDungeonById (g : GameState) (dId : Nat) : Option Dungeon :=
  g.dungeons.find? (fun d => d.id = dId)

/-- Modelled from the spec: the actor-at-cell occupancy query `getActorAt`. -/
def getActorAt (d : Dungeon) (x y : Int) : Option Actor :=
  d.actors.find? (fun a => a.x = x ∧ a.y = y)

/-- Modelled from the spec: the `getActorById` lookup (dungeon by id, then
actor by id inside it). -/
def getActorById (g : GameState) (dId aId : Nat) : Option Actor :=
  (getDungeonById g dId).bind (fun d => d.actors.find? (fun a => a.id = aId))

/-- Whether a room's rectangle contains a cell.  Modelled from the spec's
room-at-cell query. -/
def roomContains (r : Room) (x y : Int) : Prop :=
  r.x ≤ x ∧ x < r.x + r.width ∧ r.y ≤ y ∧ y < r.y + r.height

instance (r : Room) (x y : Int) : Decidable (roomContains r x y) := by
  unfold roomContains; infer_instance

/-- Modelled from the spec: the room-at-cell query `getRoomAt`. -/
def getRoomAt (d : Dungeon) (x y : Int) : Option Room :=
  d.rooms.find? (fun r => roomContains r x y)

/-- Modelled from the spec: the rooms-at-cell query `getAllRoomsAt`
(all rooms touching a cell, used when opening doors). -/
def getAllRoomsAt (d : Dungeon) (x y : Int) : List Room :=
  d.rooms.filter (fun r => roomContains r x y)

/-- Modelled from the spec: the chest-at-cell query `getChestAt`. -/
def getChestAt (d : Dungeon) (x y : Int) : Option Chest :=
  d.chests.find? (fun c => c.x = x ∧ c.y = y)

/-- The actor list of the dungeon with the given id (`[]` when absent);
a convenience projection for stating theorems. -/
def dungeonActors (g : GameState) (dId : Nat) : List Actor :=
  ((getDungeonById g dId).map Dungeon.actors).getD []

/-- Association-list lookup into `playerInfo`. -/
def lookupInfo (g : GameState) (pid : String) : Option PlayerInfo :=
  (g.playerInfo.find? (fun kv => kv.1 = pid)).map Prod.snd

/-! ## State-update helpers -/

/-- Replace the dungeon with the given id using `f` (in-place JS object
mutation becomes a map over the dungeon list). -/
def updDungeon (g : GameState) (dId : Nat) (f : Dungeon → Dungeon) : GameState :=
  { g with dungeons := g.dungeons.map (fun d => if d.id = dId then f d else d) }

/-- Write back a mutated actor (identified by its stable id) into the
dungeon with the given id. -/
def setActor (g : GameState) (dId : Nat) (a : Actor) : GameState :=
  updDungeon g dId (fun d =>
    { d with actors := d.actors.map (fun b => if b.id = a.id then a else b) })

/-- `addGameEvent` (`logic.ts` line 274): push one event. -/
def addGameEvent (g : GameState) (actorId : Int) (e : EventType) (delay : Nat)
    (x : Int := 0) (y : Int := 0) (value : Int := 0)
    (item : Option String := none) : GameState :=
  { g with events := g.events ++
      [{ eventKind := e, actorId := actorId, x := x, y := y, value := value,
         delay := delay, item := item }] }

/-- JS `arr.splice(arr.indexOf(x), 1)`: removes the first occurrence of
`x` when present; when `x` is absent, `indexOf` yields `-1` and
`splice(-1, 1)` removes the **last** element (a no-op on `[]`). -/
def spliceRemove {α : Type} [DecidableEq α] (l : List α) (a : α) : List α :=
  if a ∈ l then l.erase a else l.dropLast

/-- Modelled from the spec: `addItemToInventory` of `items.ts`
("add-to-inventory" collaborator): append to the shared item list. -/
def addItemToInventory (g : GameState) (it : Item) : GameState :=
  { g with items := g.items ++ [it] }

/-- Stable insertion of `a` into `l`, placing `a` before the first
element `b` with `¬ lt b a`. -/
def insertBy {α : Type} (lt : α → α → Bool) (a : α) : List α → List α
  | [] => [a]
  | b :: bs => if lt b a then b :: insertBy lt a bs else a :: b :: bs

/-- Stable ascending sort; models the (stable) JS `Array.prototype.sort`
with a numeric comparator, where `lt b a` means "`b` compares strictly
before `a`". -/
def sortBy {α : Type} (lt : α → α → Bool) : List α → List α
  | [] => []
  | x :: xs => insertBy lt x (sortBy lt xs)

/-! ## The environment of external collaborators

Everything the engine calls that lives outside `src/` (dungeon
generation, pathfinding, move enumeration, the monster-AI helpers of
`monsters.ts`, item creation of `items.ts`, `findActiveHero` of
`player.ts`) plus the clock `Rune.gameTime()` and the explicit random
draws consumed this invocation.  Modelled from the spec §6. -/
structure Env where
  /-- `Rune.gameTime()`. -/
  now : Nat
  /-- `findNextStep(game, actor, tx, ty)` of `dungeon.ts`. -/
  findNextStep : GameState → Actor → Int → Int → Option GameMove
  /-- `calcMoves(game, actor)` of `dungeon.ts`; the engine assigns the
  result to `game.possibleMoves`. -/
  calcMoves : GameState → Actor → List GameMove
  /-- The sequence of `Math.random()` draws consumed by `rollCombat`. -/
  combatRnd : Nat → ℚ
  /-- The outcome of the `createMonsterItemLoot` roll of `monsters.ts`. -/
  lootItem : Option Item
  /-- The `Math.random()` draw used for the gold amount in `kill`. -/
  goldRnd : ℚ
  /-- `findActiveHero(game)` of `player.ts`, as a predicate. -/
  findActiveHero : GameState → Bool
  /-- `generateDungeon(game, level)` of `dungeon.ts`: per the spec,
  `generate(level) -> Dungeon`. -/
  gen : Nat → Dungeon
  /-- `blocked(dungeon, undefined, x, y)` of `dungeon.ts`. -/
  blocked : Dungeon → Int → Int → Bool
  /-- The `Math.random()` draw selecting the start cell in `startDungeon`. -/
  startRnd : ℚ
  /-- `createItem(game, kind)` of `items.ts`. -/
  createItem : String → Item
  /-- `findActiveMonsters(game)` of `monsters.ts`. -/
  findActiveMonsters : GameState → List Actor
  /-- `standingNextToHero(game, actor)` of `monsters.ts`. -/
  standingNextToHero : GameState → Actor → Bool
  /-- `distanceToHero(game, dungeonId, pt)` of `monsters.ts` (reads the
  `x`/`y` fields of its third argument). -/
  distanceToHero : GameState → Nat → Int → Int → Int
  /-- `getAdjacentHero(game, dungeonId, actor)` of `monsters.ts`. -/
  getAdjacentHero : GameState → Nat → Actor → Option Actor

/-! ## Combat Resolver (`rollCombat`, lines 284–315) -/

/-- The Manhattan distance between attacker and target used by the
melee-adjacency test of `rollCombat`. -/
def manhattan (a t : Actor) : Nat :=
  (a.x - t.x).natAbs + (a.y - t.y).natAbs

/-- The effective attack score of `rollCombat` (lines 289–298): base
attack plus modifier; halved rounding up (`Math.ceil(attack / 2)`) at
Manhattan distance 1; otherwise multiplied by the multiplier when one is
supplied and truthy (JS `if (multiplier)`: a supplied `0` is falsy and
therefore ignored). -/
def effectiveAttack (attacker target : Actor) (multiplier : Option Int) : Int :=
  let attack := attacker.attack + attacker.modAttack
  if manhattan attacker target = 1 then
    Int.ceil ((attack : ℚ) / 2)
  else
    match multiplier with
    | some m => if m = 0 then attack else attack * m
    | none => attack

/-- `rollCombat` (lines 284–315): skulls are `Math.random()*6 < 3`
trials, one per point of effective attack; shields are
`Math.random()*6 < (good ? 2 : 1)` trials, one per point of effective
defense; the result is `max(0, skulls - shields)`.  The draws `rnd 0,
rnd 1, ...` are consumed skulls first, then shields. -/
def rollCombat (attacker : Actor) (target : Option Actor)
    (multiplier : Option Int) (rnd : Nat → ℚ) : Int :=
  match target with
  | none => 0
  | some t =>
    let attack := effectiveAttack attacker t multiplier
    let skulls :=
      (List.range attack.toNat).countP (fun i => decide (rnd i * 6 < 3))
    let defense := (t.defense + t.modDefense).toNat
    let shields :=
      (List.range defense).countP (fun j =>
        decide (rnd (attack.toNat + j) * 6 < (if t.good then 2 else 1)))
    max 0 ((skulls : Int) - (shields : Int))

/-- The Combat Resolver as worded by the spec (§4.1): one Bernoulli
trial per effective-attack point succeeding when the uniform draw is
below `1/2`, one trial per effective-defense point succeeding below
`1/3` for a hero defender and `1/6` otherwise, result
`max(0, skulls - shields)`.  Written from the spec's words, to be
compared with `rollCombat` (refinement). -/
def rollCombatSpec (attacker t : Actor) (multiplier : Option Int)
    (rnd : Nat → ℚ) : Int :=
  let attack := effectiveAttack attacker t multiplier
  let skulls :=
    (List.range attack.toNat).countP (fun i => decide (rnd i < 1/2))
  let defense := (t.defense + t.modDefense).toNat
  let shields :=
    (List.range defense).countP (fun j =>
      decide (rnd (attack.toNat + j) < (if t.good then (1:ℚ)/3 else 1/6)))
  max 0 ((skulls : Int) - (shields : Int))

/-! ## Death & Loot Handler (`kill`, lines 370–394) -/

/-- `kill` (lines 370–394).  The TS zeroes `target.health` (the zeroed
copy is what a hero target contributes to `deadHeroes`), then removes
the target via `splice(indexOf(target), 1)` — faithfully embedded by
`spliceRemove`, including the remove-last behaviour when the target is
no longer in the list — then emits the `died` event and runs the loot
logic for non-hero targets (`Rune.gameOver()` becomes the
`gameOverSignalled` flag). -/
def kill (g0 : GameState) (dId : Nat) (target : Actor) (extraDelay : Nat)
    (env : Env) : GameState :=
  let deadTarget := { target with health := 0 }
  let g1 := updDungeon g0 dId (fun d =>
    { d with actors := spliceRemove d.actors target })
  let g2 := addGameEvent g1 (-1) .died (400 + extraDelay) target.x target.y
    target.sprite
  if target.good then
    let g3 := { g2 with deadHeroes := g2.deadHeroes ++ [deadTarget] }
    if env.findActiveHero g3 then g3 else { g3 with gameOverSignalled := true }
  else
    match env.lootItem with
    | some it =>
      let g3 := addItemToInventory g2 it
      addGameEvent g3 (-1) .itemLoot (400 + extraDelay) target.x target.y 0
        (some it.itemKind)
    | none =>
      match target.goldOnKill with
      | some r =>
        let lootGold := Int.floor (env.goldRnd * ((r.hi - r.lo : Int) : ℚ)) + r.lo
        let g3 := { g2 with gold := g2.gold + lootGold }
        addGameEvent g3 (-1) .goldLoot (400 + extraDelay) target.x target.y
          lootGold
      | none => g2

/-! ## Save bookkeeping (`saveGame`, lines 203–230) -/

/-- The save descriptor: the joined names of all current players. -/
def descOf (g : GameState) : String :=
  String.intercalate "," (g.playerInfo.map (fun kv => kv.2.name))

/-- The body of `saveGame` once the `whoseSave` guard has passed: ensure
slot 0 exists (creating persisted data for the player if absent, aliased
as in the TS) and overwrite its level/gold/items/descriptor. -/
def saveGameCore (pid : String) (dungeonIndex : Nat) (g : GameState)
    (env : Env) : GameState :=
  let saves0 :=
    ((g.persisted.find? (fun kv => kv.1 = pid)).map (fun kv => kv.2.saves)).getD []
  let slot0 :=
    match saves0.head? with
    | some s => s
    | none =>
      { savedAt := g.time + env.now, level := 0, items := [],
        desc := descOf g, gold := 0 }
  let slot1 := { slot0 with
    level := dungeonIndex
    gold := g.gold
    items := g.items
    desc := descOf g }
  let newSaves := slot1 :: saves0.tail
  if (g.persisted.find? (fun kv => kv.1 = pid)).isSome then
    { g with persisted := g.persisted.map (fun kv =>
        if kv.1 = pid then (kv.1, { saves := newSaves }) else kv) }
  else
    { g with persisted := g.persisted ++ [(pid, { saves := newSaves })] }

/-- `saveGame` (lines 203–230): refuse to overwrite someone else's save,
otherwise update slot 0. -/
def saveGame (pid : String) (dungeonIndex : Nat) (g : GameState)
    (env : Env) : GameState :=
  match g.whoseSave with
  | some w => if w = pid then saveGameCore pid dungeonIndex g env else g
  | none => saveGameCore pid dungeonIndex g env

/-! ## Dungeon transition (`startDungeon`, lines 317–366) -/

/-- The interior coordinates scanned by the start-cell search:
`for (let x = 1; x < bound - 1; x++)` yields `1 .. bound - 2`. -/
def scanCoords (bound : Int) : List Int :=
  (List.range (bound - 2).toNat).map (fun i => (i : Int) + 1)

/-- The start-cell scan of `startDungeon` (lines 322–332): interior
cells of the start room, skipping `(width-2, 1)` and any occupied or
blocked cell, in x-major order. -/
def startCells (d : Dungeon) (room : Room) (env : Env) : List Point :=
  ((scanCoords room.width).map (fun x =>
    (scanCoords room.height).filterMap (fun y =>
      if x = room.width - 2 ∧ y = 1 then none
      else if (getActorAt d (room.x + x) (room.y + y)).isNone = true ∧
              env.blocked d (room.x + x) (room.y + y) = false then
        some { x := x + room.x, y := y + room.y }
      else none))).flatten

/-- The random choice `possibleStarts[Math.floor(Math.random() * len)]`
(out-of-range indices, impossible for a draw in `[0,1)`, default to the
origin). -/
def startCellChoice (cells : List Point) (env : Env) : Point :=
  cells.getD (Int.floor (env.startRnd * (cells.length : ℚ))).toNat { x := 0, y := 0 }

/-- The copied actor placed at the chosen start cell of the next
dungeon (`copyActor` plus the position/interpolation resets). -/
def relocatedActor (actor : Actor) (nextDId : Nat) (st : Point) : Actor :=
  { actor with
    dungeonId := nextDId
    x := st.x
    y := st.y
    lx := st.x
    ly := st.y
    lt := 0 }

/-- `startDungeon` (lines 317–366): pick a random free start cell in the
new dungeon's start room, remove the actor from the old dungeon, add a
repositioned copy to the new one, retarget every `playerInfo` record
owning the actor, and emit a `stairs` event.  On failure (no start room
or no free cell — the TS only logs an error) the actor stays put. -/
def startDungeon (g : GameState) (actor : Actor) (nextDId oldDId : Nat)
    (env : Env) : GameState × Actor :=
  match getDungeonById g nextDId with
  | none => (g, actor)
  | some nextD =>
    match nextD.rooms.find? (fun r => r.start) with
    | none => (g, actor)
    | some startRoom =>
      let possibleStarts := startCells nextD startRoom env
      if possibleStarts = [] then (g, actor)
      else
        let start := startCellChoice possibleStarts env
        let g1 := updDungeon g oldDId (fun d =>
          { d with actors := spliceRemove d.actors actor })
        let newActor := relocatedActor actor nextDId start
        let g2 := updDungeon g1 nextDId (fun d =>
          { d with actors := d.actors ++ [newActor] })
        let g3 := { g2 with playerInfo := g2.playerInfo.map (fun kv =>
          if kv.2.actorId = actor.id then (kv.1, { kv.2 with dungeonId := nextDId })
          else kv) }
        let g4 := addGameEvent g3 (newActor.id : Int) .stairs 0 actor.x actor.y
          (oldDId : Int)
        (g4, newActor)

/-! ## Activity Executor (`applyCurrentActivity`, lines 398–580) -/

/-- The actor after the `move` branch of `applyCurrentActivity`
(lines 413–427): position relocated one cell, previous position and time
recorded for interpolation, one move spent, facing updated from the
horizontal delta. -/
def moveActor (actor : Actor) (step : GameMove) (env : Env) : Actor :=
  let a1 := { actor with
    lx := actor.x
    ly := actor.y
    lt := env.now
    x := step.x
    y := step.y
    moves := actor.moves - 1 }
  let a2 := if a1.x > a1.lx then { a1 with facingRight := true } else a1
  if a2.x < a2.lx then { a2 with facingRight := false } else a2

/-- One step-kind branch of `applyCurrentActivity` (lines 413–538),
applied to the acting actor; returns the updated state together with the
actor value the remaining code works with. -/
def applyStepEffect (g : GameState) (dId : Nat) (actor : Actor)
    (step : GameMove) (env : Env) : GameState × Actor :=
  match step.moveKind with
  | .move =>
    let a3 := moveActor actor step env
    let g1 := setActor g dId a3
    (addGameEvent g1 (actor.id : Int) .step 0, a3)
  | .openDoor =>
    let g1 := updDungeon g dId (fun d =>
      { d with
        doors := d.doors.map (fun dr =>
          if dr.x = step.x ∧ dr.y = step.y then { dr with opened := true } else dr),
        rooms := d.rooms.map (fun r =>
          if roomContains r step.x step.y then { r with discovered := true } else r) })
    (addGameEvent g1 (actor.id : Int) .openDoor 0, actor)
  | .chest =>
    match (getDungeonById g dId).bind (fun d => getChestAt d step.x step.y) with
    | some chest =>
      let g1 := updDungeon g dId (fun d =>
        { d with chests := d.chests.map (fun c =>
            if c = chest then { c with opened := true } else c) })
      let it := env.createItem chest.itemKind
      let g2 := addItemToInventory g1 it
      let g3 := addGameEvent g2 (actor.id : Int) .chestOpen 0
      (addGameEvent g3 (actor.id : Int) .itemLoot 0 step.x step.y 0
        (some it.itemKind), actor)
    | none => (g, actor)
  | .shoot =>
    let a1 := { actor with actions := actor.actions - 1 }
    let g1 := setActor g dId a1
    let g2 :=
      match (getDungeonById g1 dId).bind (fun d => getActorAt d step.x step.y) with
      | some t =>
        let damage := rollCombat a1 (some t) none env.combatRnd
        let ga := addGameEvent g1 (a1.id : Int) .shoot 0 step.x step.y
        let gb := addGameEvent ga (a1.id : Int) .damage 300 step.x step.y damage
        let t1 := { t with health := t.health - damage }
        let gc := setActor gb dId t1
        if t1.health ≤ 0 then kill gc dId t1 300 env else gc
      | none => g1
    let a2 := if a1.moves < a1.maxMoves then { a1 with moves := 0 } else a1
    let g3 := setActor g2 dId a2
    ({ g3 with possibleMoves := env.calcMoves g3 a2 }, a2)
  | .magic =>
    let a1 := { actor with actions := actor.actions - 1, magic := actor.magic - 3 }
    let g1 := setActor g dId a1
    let g2 :=
      match (getDungeonById g1 dId).bind (fun d => getActorAt d step.x step.y) with
      | some t =>
        let damage := rollCombat a1 (some t) (some 2) env.combatRnd
        let ga := addGameEvent g1 (a1.id : Int) .magic 0 step.x step.y
        let gb := addGameEvent ga (a1.id : Int) .damage 300 step.x step.y damage
        let t1 := { t with health := t.health - damage }
        let gc := setActor gb dId t1
        if t1.health ≤ 0 then kill gc dId t1 300 env else gc
      | none => g1
    let a2 := if a1.moves < a1.maxMoves then { a1 with moves := 0 } else a1
    let g3 := setActor g2 dId a2
    ({ g3 with possibleMoves := env.calcMoves g3 a2 }, a2)
  | .heal =>
    let a1 := { actor with actions := actor.actions - 1, magic := actor.magic - 2 }
    let g1 := setActor g dId a1
    let g2 :=
      match (getDungeonById g1 dId).bind (fun d => getActorAt d step.x step.y) with
      | some t =>
        let h2 := t.health + 2
        let t1 := { t with health := if h2 > t.maxHealth then t.maxHealth else h2 }
        let ga := setActor g1 dId t1
        addGameEvent ga (a1.id : Int) .heal 0 step.x step.y 2
      | none => g1
    let a2 := if a1.moves < a1.maxMoves then { a1 with moves := 0 } else a1
    let g3 := setActor g2 dId a2
    ({ g3 with possibleMoves := env.calcMoves g3 a2 }, a2)
  | .attack =>
    let a1 := { actor with actions := actor.actions - 1 }
    let g1 := setActor g dId a1
    let g2 :=
      match (getDungeonById g1 dId).bind (fun d => getActorAt d step.x step.y) with
      | some t =>
        let damage := rollCombat a1 (some t) none env.combatRnd
        let ga := addGameEvent g1 (a1.id : Int) .melee 0
        let gb := addGameEvent ga (a1.id : Int) .damage 100 step.x step.y damage
        let t1 := { t with health := t.health - damage }
        let gc := setActor gb dId t1
        if t1.health ≤ 0 then kill gc dId t1 0 env else gc
      | none => g1
    let a2 := if a1.moves < a1.maxMoves then { a1 with moves := 0 } else a1
    let g3 := setActor g2 dId a2
    ({ g3 with possibleMoves := env.calcMoves g3 a2 }, a2)

/-- The stairs-down completion check of `applyCurrentActivity`
(lines 545–569): when a hero finishes on the centre cell of a
stairs-down room, lazily generate the next dungeon (note the TS computes
`dungeonIndex = dungeon.level + 1` but generates and looks up level
`dungeonIndex + 1`), save the owning player's progress and relocate the
actor. -/
def stairsTransition (g : GameState) (dId : Nat) (actor : Actor)
    (env : Env) : GameState × Actor :=
  match getDungeonById g dId with
  | none => (g, actor)
  | some d =>
    match getRoomAt d actor.x actor.y with
    | none => (g, actor)
    | some room =>
      if actor.good && room.stairsDown then
        let sx := room.x + Int.ediv room.width 2
        let sy := room.y + Int.ediv room.height 2
        if sx = actor.x ∧ sy = actor.y then
          let dungeonIndex := d.level + 1
          let g1 :=
            if (g.dungeons.find? (fun dd => dd.level = dungeonIndex + 1)).isNone
            then { g with dungeons := g.dungeons ++ [env.gen (dungeonIndex + 1)] }
            else g
          let g2 :=
            match actor.playerId with
            | some pid => saveGame pid dungeonIndex g1 env
            | none => g1
          match g2.dungeons.find? (fun dd => dd.level = dungeonIndex + 1) with
          | some nextD => startDungeon g2 actor nextD.id dId env
          | none => (g2, actor)
        else (g, actor)
      else (g, actor)

/-- `applyCurrentActivity` (lines 398–580): advance the in-flight
activity by one step.  Returns `(advanced?, new state)`; note
`lastUpdate` is stamped as soon as an activity exists, even when the
dungeon lookup fails and `false` is returned. -/
def applyCurrentActivity (g0 : GameState) (env : Env) : Bool × GameState :=
  match g0.currentActivity with
  | none => (false, g0)
  | some act =>
    let g := { g0 with lastUpdate := env.now }
    match getDungeonById g act.dungeonId with
    | none => (false, g)
    | some dungeon =>
      match dungeon.actors.find? (fun a => a.id = act.actorId) with
      | none => (true, g)
      | some actor =>
        match env.findNextStep g actor act.tx act.ty with
        | none => (true, g)
        | some step =>
          let r1 := applyStepEffect g act.dungeonId actor step env
          if step.x = act.tx ∧ step.y = act.ty then
            let r2 := stairsTransition r1.1 act.dungeonId r1.2 env
            let g3 := { r2.1 with currentActivity := none }
            (true, { g3 with possibleMoves := env.calcMoves g3 r2.2 })
          else
            (true, r1.1)

/-! ## Turn Manager (`nextTurn`, lines 234–271) -/

/-- JS `Array.prototype.indexOf`: `-1` when absent. -/
def jsIndexOf (l : List String) (s : String) : Int :=
  if s ∈ l then (l.indexOf s : Int) else -1

/-- The rotated index computed at the top of `nextTurn` (lines 235–241):
wrap to `0` from the last slot (or when `whoseTurn` is not found and the
order is empty), else advance by one. -/
def nextTurnIndex (g : GameState) : Nat :=
  let index0 := jsIndexOf g.playerOrder g.whoseTurn
  if index0 ≥ (g.playerOrder.length : Int) - 1 then 0 else (index0 + 1).toNat

/-- `nextTurn` (lines 234–271), with explicit fuel standing in for the
TS self-recursion that skips dead players (the recursion depth is
bounded by the number of consecutive dead entries, hence by
`playerOrder.length`).  An out-of-range array access
(`playerOrder[index]` on an empty order) is modelled by `""`; a missing
`playerInfo` record (on which the TS would throw) is modelled as
falling through to the `turnChange` event. -/
def nextTurnAux (env : Env) : Nat → GameState → GameState
  | 0, g => g
  | fuel + 1, g0 =>
    let g := { g0 with whoseTurn := g0.playerOrder.getD (nextTurnIndex g0) "" }
    if g.whoseTurn ≠ "evil" then
      match lookupInfo g g.whoseTurn with
      | some info =>
        match getActorById g info.dungeonId info.actorId with
        | some newActor =>
          if newActor.health ≤ 0 then nextTurnAux env fuel g
          else
            let a2 := { newActor with
              moves := newActor.maxMoves, actions := 1,
              magic := if newActor.magic < newActor.maxMagic
                       then newActor.magic + 1 else newActor.magic }
            let g1 := setActor g info.dungeonId a2
            let g2 := { g1 with possibleMoves := env.calcMoves g1 a2 }
            addGameEvent g2 0 .turnChange 0
        | none => addGameEvent g 0 .turnChange 0
      | none => addGameEvent g 0 .turnChange 0
    else
      let g1 := { g with
        evilTurnMax := 100,
        dungeons := g.dungeons.map (fun d =>
          { d with actors := d.actors.map (fun a =>
              if a.good then a else { a with moves := a.maxMoves, actions := 1 }) }) }
      addGameEvent g1 0 .turnChange 0

/-- `nextTurn` with enough fuel for any reachable state. -/
def nextTurn (g : GameState) (env : Env) : GameState :=
  nextTurnAux env (g.playerOrder.length + 1) g

/-- The `playerOrder` update of `joinGame` (lines 186–188): insert the
new participant just before the final slot unless already present.  (No
other statement of `joinGame` touches `playerOrder`.) -/
def joinGamePlayerOrder (order : List String) (pid : String) : List String :=
  if pid ∈ order then order else order.insertIdx (order.length - 1) pid

/-- The `clearType` action (lines 765–768):
`playerOrder.splice(playerOrder.indexOf(playerId), 1)` (the JS
remove-last footgun applies when the caller is not in the order) and
deletion of the caller's `playerInfo` record. -/
def clearType (g : GameState) (pid : String) : GameState :=
  { g with playerOrder := spliceRemove g.playerOrder pid,
           playerInfo := g.playerInfo.filter (fun kv => kv.1 != pid) }

/-! ## Evil Turn Planner (`takeEvilTurn`, lines 583–650) -/

/-- All heroes across all dungeons (lines 585–586). -/
def heroesOf (g : GameState) : List Actor :=
  (g.dungeons.map (fun d => d.actors.filter (fun a => a.good))).flatten

/-- The eligible-monster filter (lines 598–603). -/
def eligibleMonsters (g : GameState) (env : Env) : List Actor :=
  (env.findActiveMonsters g).filter (fun a =>
    let nextToHero := env.standingNextToHero g a
    (decide (a.moves > 0) && !nextToHero) || (decide (a.actions > 0) && nextToHero))

/-- The eligible monsters sorted by distance to the nearest hero
(line 605). -/
def sortedEligible (g : GameState) (env : Env) : List Actor :=
  sortBy (fun p q => decide (env.distanceToHero g p.dungeonId p.x p.y <
    env.distanceToHero g q.dungeonId q.x q.y)) (eligibleMonsters g env)

/-- `takeEvilTurn` (lines 583–650): the per-tick evil planner. -/
def takeEvilTurn (g0 : GameState) (env : Env) : GameState :=
  if (heroesOf g0).isEmpty then g0
  else
    let g := { g0 with evilTurnMax := g0.evilTurnMax - 1 }
    if g.evilTurnMax ≤ 0 then nextTurn g env
    else
      match sortedEligible g env with
      | [] => nextTurn g env
      | monster :: _ =>
        let g1 := { g with possibleMoves := env.calcMoves g monster }
        if g1.possibleMoves.isEmpty then
          setActor g1 monster.dungeonId { monster with moves := 0, actions := 0 }
        else
          match env.getAdjacentHero g1 monster.dungeonId monster with
          | some hero =>
            let g2 :=
              match g1.possibleMoves.find? (fun m => m.x = hero.x ∧ m.y = hero.y) with
              | some am =>
                let act : Activity :=
                  { dungeonId := monster.dungeonId, actorId := monster.id,
                    startTime := env.now, tx := am.x, ty := am.y }
                { g1 with currentActivity := some act }
              | none => g1
            setActor g2 monster.dungeonId { monster with actions := monster.actions - 1 }
          | none =>
            let sortedMoves := sortBy (fun p q =>
              decide (env.distanceToHero g1 monster.dungeonId p.x p.y <
                env.distanceToHero g1 monster.dungeonId q.x q.y)) g1.possibleMoves
            let g2 := { g1 with possibleMoves := sortedMoves }
            match sortedMoves.head? with
            | some bestMove =>
              if env.distanceToHero g2 monster.dungeonId bestMove.x bestMove.y <
                 env.distanceToHero g2 monster.dungeonId monster.x monster.y then
                let act : Activity :=
                  { dungeonId := monster.dungeonId, actorId := monster.id,
                    startTime := env.now, tx := bestMove.x, ty := bestMove.y }
                { g2 with currentActivity := some act }
              else
                setActor g2 monster.dungeonId { monster with moves := 0, actions := 0 }
            | none => g2

/-! ## Tick Driver (`update`, lines 777–811) -/

/-- The `update` callback (lines 777–811): clear the per-tick event
list, prune heroless dungeons once more than two are live, then — when a
logic step interval (`STEP_TIME = 1000/3`) has elapsed — advance the
activity, else run the evil planner or the auto-end-turn check. -/
def update (g0 : GameState) (env : Env) : GameState :=
  let g1 := { g0 with events := [] }
  let g2 :=
    if g1.dungeons.length > 2
    then { g1 with dungeons := g1.dungeons.filter (fun d =>
            d.actors.any (fun a => a.good)) }
    else g1
  if ((env.now : ℚ) - (g2.lastUpdate : ℚ)) > 1000 / 3 then
    let r := applyCurrentActivity g2 env
    if r.1 then r.2
    else if r.2.whoseTurn = "evil" then takeEvilTurn r.2 env
    else if r.2.possibleMoves.isEmpty then
      if r.2.playerOrder.length > 0 then nextTurn r.2 env else r.2
    else r.2
  else g2

/-! ## Invariant predicates -/

/-- The resource-bounds invariant of §8 for one actor. -/
def boundsOk (a : Actor) : Prop :=
  0 ≤ a.health ∧ a.health ≤ a.maxHealth ∧
  0 ≤ a.magic ∧ a.magic ≤ a.maxMagic ∧
  0 ≤ a.moves ∧ a.moves ≤ a.maxMoves

instance (a : Actor) : Decidable (boundsOk a) := by
  unfold boundsOk; infer_instance

/-- The bounds invariant over every actor of every dungeon. -/
def stateBounds (g : GameState) : Prop :=
  ∀ d ∈ g.dungeons, ∀ a ∈ d.actors, boundsOk a

instance (g : GameState) : Decidable (stateBounds g) := by
  unfold stateBounds; infer_instance

/-- Actor ids are unique within each dungeon (they are drawn from the
global `nextId` counter). -/
def idsNodup (g : GameState) : Prop :=
  ∀ d ∈ g.dungeons, (d.actors.map Actor.id).Nodup

instance (g : GameState) : Decidable (idsNodup g) := by
  unfold idsNodup; infer_instance

/-- The turn-order invariant of §3: non-empty, duplicate-free, ending in
the single `"evil"` slot. -/
def orderInv (order : List String) : Prop :=
  order ≠ [] ∧ order.getLast? = some "evil" ∧ order.Nodup

instance (order : List String) : Decidable (orderInv order) := by
  unfold orderInv; infer_instance

/-! ## Event shapes emitted by `kill` -/

/-- The `died` event emitted by `kill` for a given target and delay. -/
def diedEvent (target : Actor) (extra : Nat) : GameEvent :=
  { eventKind := .died, x := target.x, y := target.y, value := target.sprite,
    actorId := -1, delay := 400 + extra, item := none }

/-- The `itemLoot` event emitted by `kill` when the loot roll yields an
item. -/
def itemLootEvent (target : Actor) (extra : Nat) (kind : String) : GameEvent :=
  { eventKind := .itemLoot, x := target.x, y := target.y, value := 0,
    actorId := -1, delay := 400 + extra, item := some kind }

/-- The `goldLoot` event emitted by `kill` when gold is awarded. -/
def goldLootEvent (target : Actor) (extra : Nat) (amt : Int) : GameEvent :=
  { eventKind := .goldLoot, x := target.x, y := target.y, value := amt,
    actorId := -1, delay := 400 + extra, item := none }

/-- The gold amount `Math.floor(Math.random() * (max - min)) + min`
computed by `kill`. -/
def killGoldAmount (r : GoldRange) (rnd : ℚ) : Int :=
  Int.floor (rnd * ((r.hi - r.lo : Int) : ℚ)) + r.lo

/-! ## Concrete fixtures -/

/-- A baseline actor, used to build concrete test actors. -/
def baseActor : Actor :=
  { id := 0, playerId := none, dungeonId := 1, x := 0, y := 0, lx := 0, ly := 0,
    lt := 0, good := true, facingRight := true, sprite := 0, attack := 0,
    modAttack := 0, defense := 0, modDefense := 0, health := 1, maxHealth := 1,
    magic := 0, maxMagic := 0, moves := 0, maxMoves := 0, actions := 0,
    goldOnKill := none }

/-- A hero with attack 4 standing at the origin. -/
def c1a : Actor := { baseActor with attack := 4 }

/-- A monster with defense 2 two cells away (Manhattan distance 2). -/
def c1d : Actor := { baseActor with x := 2, good := false, defense := 2 }

/-- The same monster moved adjacent (Manhattan distance 1). -/
def c1dAdj : Actor := { c1d with x := 1 }

/-- A concrete random stream for combat evaluations. -/
def c1rnd : Nat → ℚ := fun _ => 1/4

/-- A baseline environment of external collaborators for concrete
evaluations. -/
def baseEnv : Env :=
  { now := 1000
    findNextStep := fun _ _ _ _ => none
    calcMoves := fun _ _ => []
    combatRnd := fun _ => 1/4
    lootItem := none
    goldRnd := 0
    findActiveHero := fun g => g.dungeons.any (fun d => d.actors.any (fun a => a.good))
    gen := fun lvl => { id := 90 + lvl, level := lvl, rooms := [], doors := [],
                        chests := [], actors := [] }
    blocked := fun _ _ _ => false
    startRnd := 0
    createItem := fun k => { id := 77, itemKind := k }
    findActiveMonsters := fun _ => []
    standingNextToHero := fun _ _ => false
    distanceToHero := fun _ _ _ _ => 0
    getAdjacentHero := fun _ _ _ => none }

/-- A baseline game state for concrete evaluations. -/
def baseState : GameState :=
  { persisted := [], gold := 0, items := [], nextId := 1,
    playerOrder := ["p1", "evil"], deadHeroes := [], playerInfo := [],
    whoseTurn := "p1", dungeons := [], possibleMoves := [],
    currentActivity := none, lastUpdate := 0, events := [],
    evilTurnMax := 0, whoseSave := none, saveDesc := none, time := 0,
    saveLevel := 0, gameOverSignalled := false }

/-- A monster carrying a gold range `[5, 10)` (Scenario B). -/
def c3monster : Actor :=
  { baseActor with
    id := 2
    good := false
    x := 4
    y := 4
    goldOnKill := some { lo := 5, hi := 10 } }

/-- A dungeon holding only the gold-carrying monster. -/
def c3dungeon : Dungeon :=
  { id := 1, level := 1, rooms := [], doors := [], chests := [],
    actors := [c3monster] }

/-- The game state for the Scenario-B kill. -/
def c3state : GameState := { baseState with dungeons := [c3dungeon] }

/-- An environment whose gold draw is 1/2 (and whose loot roll yields
no item). -/
def c3env : Env := { baseEnv with goldRnd := 1/2 }

/-- A hero that stays in the dungeon for the idempotence test. -/
def c5hero : Actor := { baseActor with id := 3, x := 5, y := 5 }

/-- A monster that has already been removed from the dungeon. -/
def c5gone : Actor := { baseActor with id := 4, good := false, x := 6, y := 5 }

/-- A dungeon containing only the hero — `c5gone` is absent. -/
def c5dungeon : Dungeon :=
  { id := 1, level := 1, rooms := [], doors := [], chests := [],
    actors := [c5hero] }

/-- The game state for the repeated-kill test. -/
def c5state : GameState := { baseState with dungeons := [c5dungeon] }

/-- A hero for the evil-turn fixtures. -/
def c8hero : Actor := { baseActor with id := 10, x := 1, y := 1 }

/-- An eligible monster with moves and one action. -/
def c8monster : Actor :=
  { baseActor with
    id := 11
    good := false
    x := 3
    y := 1
    moves := 2
    actions := 1 }

/-- A dungeon holding the hero and the monster. -/
def c8dungeon : Dungeon :=
  { id := 1, level := 1, rooms := [], doors := [], chests := [],
    actors := [c8hero, c8monster] }

/-- An evil-turn state with budget 5. -/
def c8state : GameState :=
  { baseState with
    dungeons := [c8dungeon]
    whoseTurn := "evil"
    evilTurnMax := 5 }

/-- The same state with budget 1, one planner call away from the stall
guard. -/
def c8state1 : GameState := { c8state with evilTurnMax := 1 }

/-- An environment whose active-monster query returns the non-heroes of
dungeon 1. -/
def c8env : Env :=
  { baseEnv with
    findActiveMonsters := fun g => (dungeonActors g 1).filter (fun a => !a.good) }

/-- A hero adjacent to the planner's monster. -/
def c9hero : Actor := { baseActor with id := 6, x := 1, y := 1 }

/-- The monster picked by the planner, with one action. -/
def c9monster : Actor :=
  { baseActor with
    id := 7
    good := false
    x := 2
    y := 1
    moves := 2
    actions := 1 }

/-- A dungeon holding the adjacent pair. -/
def c9dungeon : Dungeon :=
  { id := 1, level := 1, rooms := [], doors := [], chests := [],
    actors := [c9hero, c9monster] }

/-- An evil-turn state for the planner-attack tests. -/
def c9state : GameState :=
  { baseState with
    dungeons := [c9dungeon]
    whoseTurn := "evil"
    evilTurnMax := 5 }

/-- A legal move that does *not* target the hero's cell. -/
def c9moveAway : GameMove :=
  { x := 5, y := 5, sx := 2, sy := 1, moveKind := .attack, depth := 1 }

/-- A legal move targeting the hero's cell. -/
def c9moveAtk : GameMove :=
  { x := 1, y := 1, sx := 2, sy := 1, moveKind := .attack, depth := 1 }

/-- An environment in which the monster is adjacent to the hero but its
only legal move misses the hero's cell. -/
def c9env : Env :=
  { baseEnv with
    findActiveMonsters := fun g => (dungeonActors g 1).filter (fun a => !a.good)
    standingNextToHero := fun _ _ => true
    getAdjacentHero := fun _ _ _ => some c9hero
    calcMoves := fun _ _ => [c9moveAway] }

/-- The same environment with a legal move onto the hero's cell. -/
def c9env2 : Env := { c9env with calcMoves := fun _ _ => [c9moveAtk] }

/-- A 7×7 stairs-down room at the origin; its centre cell is (3,3). -/
def c4room : Room :=
  { x := 0, y := 0, width := 7, height := 7, start := true,
    stairsDown := true, discovered := true }

/-- A hero one cell above the stairs centre, owned by player `p1`. -/
def c4hero : Actor :=
  { baseActor with
    id := 10
    playerId := some "p1"
    x := 3
    y := 2
    lx := 3
    ly := 2
    moves := 3
    maxMoves := 3 }

/-- The level-1 dungeon holding the hero and the stairs room. -/
def c4dungeon : Dungeon :=
  { id := 1, level := 1, rooms := [c4room], doors := [], chests := [],
    actors := [c4hero] }

/-- A state whose activity walks the hero onto the stairs centre. -/
def c4state : GameState :=
  { baseState with
    dungeons := [c4dungeon]
    playerInfo := [("p1", { dungeonId := 1, classKind := "knight",
                            actorId := 10, name := "Kev" })]
    currentActivity := some { dungeonId := 1, actorId := 10, startTime := 0,
                              tx := 3, ty := 3 } }

/-- The 4×4 start room of generated dungeons. -/
def c4genRoom : Room :=
  { x := 0, y := 0, width := 4, height := 4, start := true,
    stairsDown := false, discovered := false }

/-- A generator producing, for level `n`, an empty dungeon with id
`90 + n` and one start room; the step finder walks straight to the
requested destination. -/
def c4env : Env :=
  { baseEnv with
    gen := fun lvl => { id := 90 + lvl, level := lvl, rooms := [c4genRoom],
                        doors := [], chests := [], actors := [] }
    findNextStep := fun _ _ tx ty =>
      some { x := tx, y := ty, sx := 3, sy := 2, moveKind := .move, depth := 1 } }

/-- The planner's state right after the budget decrement
(`game.evilTurnMax--`). -/
def evilDecremented (g : GameState) : GameState :=
  { g with evilTurnMax := g.evilTurnMax - 1 }

/-- The planner's state once `calcMoves` stored the selected monster's
legal moves. -/
def evilWithMoves (g : GameState) (env : Env) (monster : Actor) : GameState :=
  { evilDecremented g with
    possibleMoves := env.calcMoves (evilDecremented g) monster }

/-- A state whose in-flight activity names an actor that is no longer in
its dungeon (id 99 is absent from `c5dungeon`). -/
def c10state : GameState :=
  { baseState with
    dungeons := [c5dungeon]
    currentActivity := some { dungeonId := 1, actorId := 99, startTime := 0,
                              tx := 0, ty := 0 } }

/-! ## C1: adjacency halving and the multiplier -/

/-- C1, counterexample: the claim says that at any distance other than 1
the multiplier, when supplied, is applied to the effective attack score.
For the concrete attacker `c1a` (attack 4) and defender `c1d` at
Manhattan distance 2 with supplied multiplier `0`, the code ignores the
multiplier (JS `if (multiplier)` is falsy at 0), so the score is 4, not
`(4 + 0) * 0 = 0`. -/
theorem C1_counterexample :
    effectiveAttack c1a c1d (some 0) ≠ (c1a.attack + c1a.modAttack) * 0 := by
  decide

/-- C1 (amended): at Manhattan distance exactly 1 the effective attack
score is `ceil((base attack + attack modifier) / 2)` whatever multiplier
is supplied, and the full combat roll coincides for multiplier 2 and
multiplier 1 on identical random draws; at any other distance a supplied
**nonzero** multiplier is applied to the effective attack score (a
supplied zero is ignored by the JS truthiness test). -/
theorem C1_adjacency_halves (a t : Actor) (m : Option Int) (k : Int)
    (rnd : Nat → ℚ) :
    (manhattan a t = 1 →
      effectiveAttack a t m = Int.ceil (((a.attack + a.modAttack : Int) : ℚ) / 2) ∧
      rollCombat a (some t) (some 2) rnd = rollCombat a (some t) (some 1) rnd) ∧
    (manhattan a t ≠ 1 → k ≠ 0 →
      effectiveAttack a t (some k) = (a.attack + a.modAttack) * k) := by
  constructor
  · intro h
    constructor
    · simp [effectiveAttack, h]
    · simp [rollCombat, effectiveAttack, h]
  · intro h hk
    simp [effectiveAttack, h, hk]

/-- C1, witness: instantiating the amended theorem at attack 4 against
the adjacent defender, and at distance 2 with multiplier 3. -/
theorem C1_adjacency_halves_witness :
    rollCombat c1a (some c1dAdj) (some 2) c1rnd =
      rollCombat c1a (some c1dAdj) (some 1) c1rnd ∧
    effectiveAttack c1a c1d (some 3) = 12 := by
  refine ⟨((C1_adjacency_halves c1a c1dAdj (some 2) 3 c1rnd).1 (by decide)).2, ?_⟩
  have h := (C1_adjacency_halves c1a c1d (some 3) 3 c1rnd).2 (by decide) (by decide)
  simpa using h

/-! ## C2: the dice-pool refinement -/

/-- C2: for every attacker, defender and random-draw sequence the
resolver rolls one trial per effective-attack point succeeding below
probability threshold 1/2 (skulls) and one per effective-defense point
succeeding below 1/3 for a hero defender, 1/6 otherwise (shields),
returning `max(0, skulls − shields)`; the result is never negative. -/
theorem C2_rollCombat_spec (a t : Actor) (m : Option Int) (rnd : Nat → ℚ)
    (target : Option Actor) :
    rollCombat a (some t) m rnd = rollCombatSpec a t m rnd ∧
    0 ≤ rollCombat a target m rnd := by
  constructor
  · unfold rollCombat rollCombatSpec
    have hskull : ∀ i : Nat, decide (rnd i * 6 < 3) = decide (rnd i < 1/2) := by
      intro i
      rw [decide_eq_decide]
      rw [show (1:ℚ)/2 = 3/6 by norm_num, lt_div_iff₀ (by norm_num : (0:ℚ) < 6)]
    have hshield : ∀ j : Nat,
        decide (rnd j * 6 < (if t.good then 2 else 1)) =
        decide (rnd j < (if t.good then (1:ℚ)/3 else 1/6)) := by
      intro j
      rw [decide_eq_decide]
      cases t.good
      · rw [if_neg (by simp), if_neg (by simp)]
        rw [lt_div_iff₀ (by norm_num : (0:ℚ) < 6)]
      · rw [if_pos rfl, if_pos rfl]
        rw [show (1:ℚ)/3 = 2/6 by norm_num, lt_div_iff₀ (by norm_num : (0:ℚ) < 6)]
    simp only [hskull, hshield]
  · cases target with
    | none => simp [rollCombat]
    | some t2 =>
      show 0 ≤ max 0 _
      exact le_max_left _ _

/-! ## Projection lemmas for the state-update helpers -/

@[simp] theorem events_addGameEvent (g : GameState) (a : Int) (e : EventType)
    (dl : Nat) (x y v : Int) (it : Option String) :
    (addGameEvent g a e dl x y v it).events =
      g.events ++ [{ eventKind := e, actorId := a, x := x, y := y, value := v,
                     delay := dl, item := it }] := rfl

@[simp] theorem dungeons_addGameEvent (g : GameState) (a : Int) (e : EventType)
    (dl : Nat) (x y v : Int) (it : Option String) :
    (addGameEvent g a e dl x y v it).dungeons = g.dungeons := rfl

@[simp] theorem gold_addGameEvent (g : GameState) (a : Int) (e : EventType)
    (dl : Nat) (x y v : Int) (it : Option String) :
    (addGameEvent g a e dl x y v it).gold = g.gold := rfl

@[simp] theorem items_addGameEvent (g : GameState) (a : Int) (e : EventType)
    (dl : Nat) (x y v : Int) (it : Option String) :
    (addGameEvent g a e dl x y v it).items = g.items := rfl

@[simp] theorem deadHeroes_addGameEvent (g : GameState) (a : Int) (e : EventType)
    (dl : Nat) (x y v : Int) (it : Option String) :
    (addGameEvent g a e dl x y v it).deadHeroes = g.deadHeroes := rfl

@[simp] theorem events_updDungeon (g : GameState) (i : Nat) (f : Dungeon → Dungeon) :
    (updDungeon g i f).events = g.events := rfl

@[simp] theorem gold_updDungeon (g : GameState) (i : Nat) (f : Dungeon → Dungeon) :
    (updDungeon g i f).gold = g.gold := rfl

@[simp] theorem items_updDungeon (g : GameState) (i : Nat) (f : Dungeon → Dungeon) :
    (updDungeon g i f).items = g.items := rfl

@[simp] theorem deadHeroes_updDungeon (g : GameState) (i : Nat) (f : Dungeon → Dungeon) :
    (updDungeon g i f).deadHeroes = g.deadHeroes := rfl

@[simp] theorem items_addItemToInventory (g : GameState) (it : Item) :
    (addItemToInventory g it).items = g.items ++ [it] := rfl

@[simp] theorem events_addItemToInventory (g : GameState) (it : Item) :
    (addItemToInventory g it).events = g.events := rfl

@[simp] theorem gold_addItemToInventory (g : GameState) (it : Item) :
    (addItemToInventory g it).gold = g.gold := rfl

@[simp] theorem dungeons_addItemToInventory (g : GameState) (it : Item) :
    (addItemToInventory g it).dungeons = g.dungeons := rfl

/-- `find?` on an id-keyed list commutes with an id-preserving pointwise
update. -/
theorem find?_id_map_upd (l : List Dungeon) (i j : Nat) (f : Dungeon → Dungeon)
    (hf : ∀ d, (f d).id = d.id) :
    (l.map (fun d => if d.id = i then f d else d)).find? (fun d => decide (d.id = j)) =
      (l.find? (fun d => decide (d.id = j))).map (fun d => if d.id = i then f d else d) := by
  have hid : ∀ d : Dungeon, (if d.id = i then f d else d).id = d.id := by
    intro d; split
    · exact hf d
    · rfl
  rw [List.find?_map]
  have hp : ((fun d => decide (d.id = j)) ∘ fun d => if d.id = i then f d else d) =
      (fun d : Dungeon => decide (d.id = j)) := by
    funext d
    simp [Function.comp, hid d]
  rw [hp]

/-- Looking up a dungeon after an id-preserving update. -/
theorem getDungeonById_updDungeon (g : GameState) (i j : Nat)
    (f : Dungeon → Dungeon) (hf : ∀ d, (f d).id = d.id) :
    getDungeonById (updDungeon g i f) j =
      (getDungeonById g j).map (fun d => if d.id = i then f d else d) := by
  unfold getDungeonById updDungeon
  exact find?_id_map_upd g.dungeons i j f hf

/-- A successful dungeon lookup returns a dungeon with the looked-up id. -/
theorem getDungeonById_id (g : GameState) (dId : Nat) (d : Dungeon)
    (hd : getDungeonById g dId = some d) : d.id = dId := by
  unfold getDungeonById at hd
  have := List.find?_some hd
  exact of_decide_eq_true this

/-- Lookup only depends on the dungeon list. -/
theorem getDungeonById_congr (g1 g2 : GameState) (dId : Nat)
    (h : g1.dungeons = g2.dungeons) :
    getDungeonById g1 dId = getDungeonById g2 dId := by
  unfold getDungeonById; rw [h]

/-- `dungeonActors` only depends on the dungeon list. -/
theorem dungeonActors_congr (g1 g2 : GameState) (dId : Nat)
    (h : g1.dungeons = g2.dungeons) :
    dungeonActors g1 dId = dungeonActors g2 dId := by
  unfold dungeonActors
  rw [getDungeonById_congr g1 g2 dId h]

/-- The actor list of the dungeon whose actors were just rewritten. -/
theorem dungeonActors_updActors (g : GameState) (dId : Nat) (d : Dungeon)
    (f : List Actor → List Actor)
    (hd : getDungeonById g dId = some d) :
    dungeonActors (updDungeon g dId (fun dd => { dd with actors := f dd.actors })) dId =
      f d.actors := by
  unfold dungeonActors
  rw [getDungeonById_updDungeon g dId dId _ (by intro dd; rfl), hd]
  have hid := getDungeonById_id g dId d hd
  simp [hid]

/-! ## C3 and C5: the Death & Loot Handler -/

/-- Whatever branch `kill` takes, its dungeon list is the input's with
the target spliced out of dungeon `dId`. -/
theorem kill_dungeons (g : GameState) (dId : Nat) (target : Actor)
    (extra : Nat) (env : Env) :
    (kill g dId target extra env).dungeons =
      (updDungeon g dId (fun d =>
        { d with actors := spliceRemove d.actors target })).dungeons := by
  unfold kill
  cases hgood : target.good
  · cases hloot : env.lootItem with
    | some it => simp [addGameEvent, addItemToInventory]
    | none =>
      cases hgold : target.goldOnKill with
      | some r => simp [addGameEvent]
      | none => simp [addGameEvent]
  · simp [addGameEvent, apply_ite GameState.dungeons]

/-- Whatever branch `kill` takes, its event log is the old log, then the
`died` event, then loot events none of which is another `died`. -/
theorem kill_events_shape (g : GameState) (dId : Nat) (target : Actor)
    (extra : Nat) (env : Env) :
    ∃ lootEvs, (kill g dId target extra env).events =
        g.events ++ diedEvent target extra :: lootEvs ∧
      lootEvs.countP (fun e => e.eventKind == .died) = 0 := by
  unfold kill
  cases hgood : target.good
  · cases hloot : env.lootItem with
    | some it =>
      refine ⟨[itemLootEvent target extra it.itemKind], ?_, rfl⟩
      simp [diedEvent, itemLootEvent, addGameEvent, addItemToInventory]
    | none =>
      cases hgold : target.goldOnKill with
      | some r =>
        refine ⟨[goldLootEvent target extra (killGoldAmount r env.goldRnd)], ?_, rfl⟩
        simp [diedEvent, goldLootEvent, killGoldAmount, addGameEvent]
      | none =>
        refine ⟨[], ?_, rfl⟩
        simp [diedEvent, addGameEvent]
  · refine ⟨[], ?_, rfl⟩
    simp [diedEvent, addGameEvent, apply_ite GameState.events]

/-- C3: killing an actor present in its dungeon's list removes it from
that list, emits exactly one `died` event at its position with delay
`400 + extraDelay` (zeroing its health, observable for heroes through
`deadHeroes`), and for non-heroes awards at most one of item/gold: the
rolled item with exactly one `itemLoot` event and no `goldLoot`, else —
when a gold range with min < max is configured and the draw lies in
`[0,1)` — a gold amount in `[min, max)` with exactly one `goldLoot`
event and no `itemLoot` event. -/
theorem C3_kill_removes_and_loots (g : GameState) (dId : Nat) (d : Dungeon)
    (target : Actor) (extra : Nat) (env : Env)
    (hd : getDungeonById g dId = some d) (hmem : target ∈ d.actors) :
    dungeonActors (kill g dId target extra env) dId = d.actors.erase target ∧
    ((kill g dId target extra env).events.countP (fun e => e.eventKind == .died) =
      g.events.countP (fun e => e.eventKind == .died) + 1) ∧
    (target.good = true →
      (kill g dId target extra env).deadHeroes =
        g.deadHeroes ++ [{ target with health := 0 }]) ∧
    (target.good = false →
      (∀ it, env.lootItem = some it →
        (kill g dId target extra env).events =
          g.events ++ [diedEvent target extra, itemLootEvent target extra it.itemKind] ∧
        (kill g dId target extra env).items = g.items ++ [it] ∧
        (kill g dId target extra env).gold = g.gold) ∧
      (env.lootItem = none → ∀ r, target.goldOnKill = some r →
        r.lo < r.hi → 0 ≤ env.goldRnd → env.goldRnd < 1 →
        ∃ amt, r.lo ≤ amt ∧ amt < r.hi ∧
          (kill g dId target extra env).gold = g.gold + amt ∧
          (kill g dId target extra env).items = g.items ∧
          (kill g dId target extra env).events =
            g.events ++ [diedEvent target extra, goldLootEvent target extra amt])) := by
  refine ⟨?_, ?_, ?_, ?_⟩
  · have hbase : dungeonActors
        (updDungeon g dId (fun dd => { dd with actors := spliceRemove dd.actors target })) dId =
        spliceRemove d.actors target :=
      dungeonActors_updActors g dId d (fun l => spliceRemove l target) hd
    have hsplice : spliceRemove d.actors target = d.actors.erase target := by
      unfold spliceRemove; rw [if_pos hmem]
    rw [dungeonActors_congr _ _ dId (kill_dungeons g dId target extra env)]
    rw [hbase, hsplice]
  · obtain ⟨lootEvs, hev, hcount⟩ := kill_events_shape g dId target extra env
    rw [hev]
    simp [List.countP_append, List.countP_cons, hcount, diedEvent]
  · intro hgood
    unfold kill
    rw [hgood]
    simp [addGameEvent, apply_ite GameState.deadHeroes]
  · intro hgood
    constructor
    · intro it hloot
      unfold kill
      rw [hgood, hloot]
      refine ⟨?_, ?_, ?_⟩ <;>
        simp [addGameEvent, addItemToInventory, diedEvent, itemLootEvent]
    · intro hloot r hgold hlt h0 h1
      refine ⟨killGoldAmount r env.goldRnd, ?_, ?_, ?_, ?_, ?_⟩
      · have : (0:Int) ≤ Int.floor (env.goldRnd * ((r.hi - r.lo : Int) : ℚ)) := by
          rw [Int.le_floor]
          push_cast
          apply mul_nonneg h0
          have : (0:ℚ) < ((r.hi : ℚ) - (r.lo : ℚ)) := by
            rw [sub_pos]; exact_mod_cast hlt
          linarith
        unfold killGoldAmount
        linarith
      · have hc : (0:ℚ) < ((r.hi - r.lo : Int) : ℚ) := by
          push_cast
          rw [sub_pos]; exact_mod_cast hlt
        have hfl : Int.floor (env.goldRnd * ((r.hi - r.lo : Int) : ℚ)) < r.hi - r.lo := by
          rw [Int.floor_lt]
          calc env.goldRnd * ((r.hi - r.lo : Int) : ℚ)
              < 1 * ((r.hi - r.lo : Int) : ℚ) := mul_lt_mul_of_pos_right h1 hc
            _ = ((r.hi - r.lo : Int) : ℚ) := by ring
        unfold killGoldAmount
        omega
      · unfold kill
        rw [hgood, hloot, hgold]
        simp [addGameEvent, killGoldAmount]
      · unfold kill
        rw [hgood, hloot, hgold]
        simp [addGameEvent]
      · unfold kill
        rw [hgood, hloot, hgold]
        simp [addGameEvent, diedEvent, goldLootEvent, killGoldAmount]

/-- C3, witness: killing the gold-carrying monster of Scenario B empties
the dungeon and awards a gold amount in `[5, 10)`. -/
theorem C3_kill_removes_and_loots_witness :
    dungeonActors (kill c3state 1 c3monster 0 c3env) 1 = [] ∧
    ∃ amt, 5 ≤ amt ∧ amt < 10 ∧
      (kill c3state 1 c3monster 0 c3env).gold = c3state.gold + amt := by
  have h := C3_kill_removes_and_loots c3state 1 c3dungeon c3monster 0 c3env
    (by decide) (by decide)
  refine ⟨by simpa using h.1, ?_⟩
  obtain ⟨amt, h5, h10, hgold, -, -⟩ :=
    (h.2.2.2 rfl).2 rfl { lo := 5, hi := 10 } rfl (by decide)
      (by norm_num [c3env, baseEnv]) (by norm_num [c3env, baseEnv])
  exact ⟨amt, h5, h10, hgold⟩

/-- C5, counterexample: the claim says that killing an already-removed
actor is a no-op.  On the concrete state `c5state` (whose only dungeon
holds the single hero `c5hero`), killing the absent monster `c5gone`
**changes** the actor list (the `splice(-1, 1)` footgun removes the last
element, the unrelated hero) and emits a fresh `died` event. -/
theorem C5_counterexample :
    ¬ (dungeonActors (kill c5state 1 c5gone 0 baseEnv) 1 = dungeonActors c5state 1 ∧
       (kill c5state 1 c5gone 0 baseEnv).events.countP
           (fun e => e.eventKind == .died) =
         c5state.events.countP (fun e => e.eventKind == .died)) := by
  decide

/-- C5 (amended): invoking `kill` on an actor no longer present in the
dungeon's actor list is **not** a no-op: `indexOf` yields `-1`, so
`splice(-1, 1)` removes the *last* actor of the list (a list change
whenever the list is non-empty), and another `died` event is emitted
(with the loot logic run again). -/
theorem C5_kill_removed_actor (g : GameState) (dId : Nat) (d : Dungeon)
    (target : Actor) (extra : Nat) (env : Env)
    (hd : getDungeonById g dId = some d) (hmem : target ∉ d.actors) :
    dungeonActors (kill g dId target extra env) dId = d.actors.dropLast ∧
    (kill g dId target extra env).events.countP (fun e => e.eventKind == .died) =
      g.events.countP (fun e => e.eventKind == .died) + 1 := by
  constructor
  · have hbase : dungeonActors
        (updDungeon g dId (fun dd => { dd with actors := spliceRemove dd.actors target })) dId =
        spliceRemove d.actors target :=
      dungeonActors_updActors g dId d (fun l => spliceRemove l target) hd
    have hsplice : spliceRemove d.actors target = d.actors.dropLast := by
      unfold spliceRemove; rw [if_neg hmem]
    rw [dungeonActors_congr _ _ dId (kill_dungeons g dId target extra env),
      hbase, hsplice]
  · obtain ⟨lootEvs, hev, hcount⟩ := kill_events_shape g dId target extra env
    rw [hev]
    simp [List.countP_append, List.countP_cons, hcount, diedEvent]

/-- C5, witness: instantiating the amended theorem on `c5state` — the
lone hero is removed and a second `died` event appears. -/
theorem C5_kill_removed_actor_witness :
    dungeonActors (kill c5state 1 c5gone 0 baseEnv) 1 = [] ∧
    (kill c5state 1 c5gone 0 baseEnv).events.countP
      (fun e => e.eventKind == .died) = 1 := by
  have h := C5_kill_removed_actor c5state 1 c5dungeon c5gone 0 baseEnv
    (by decide) (by decide)
  refine ⟨by simpa using h.1, by simpa using h.2⟩

/-! ## C6: the turn-order invariant -/

@[simp] theorem playerOrder_addGameEvent (g : GameState) (a : Int)
    (e : EventType) (dl : Nat) (x y v : Int) (it : Option String) :
    (addGameEvent g a e dl x y v it).playerOrder = g.playerOrder := rfl

@[simp] theorem playerOrder_updDungeon (g : GameState) (i : Nat)
    (f : Dungeon → Dungeon) :
    (updDungeon g i f).playerOrder = g.playerOrder := rfl

@[simp] theorem playerOrder_setActor (g : GameState) (i : Nat) (a : Actor) :
    (setActor g i a).playerOrder = g.playerOrder := rfl

/-- `nextTurn` (at any fuel) never touches the turn order. -/
theorem nextTurnAux_playerOrder (env : Env) (fuel : Nat) (g : GameState) :
    (nextTurnAux env fuel g).playerOrder = g.playerOrder := by
  induction fuel generalizing g with
  | zero => rfl
  | succ n ih =>
    simp only [nextTurnAux]
    split
    · split
      · split
        · split
          · rw [ih]
          · simp [setActor, updDungeon, addGameEvent]
        · simp [addGameEvent]
      · simp [addGameEvent]
    · simp [addGameEvent]

/-- Inserting at the length of the left part lands between the parts. -/
theorem insertIdx_at_append (l1 l2 : List String) (a : String) :
    List.insertIdx l1.length a (l1 ++ l2) = l1 ++ a :: l2 := by
  induction l1 with
  | nil => rfl
  | cons x xs ih => simp [List.insertIdx_succ_cons, ih]

/-- An order satisfying the invariant splits as `dropLast ++ ["evil"]`
with `"evil"` not in the front part. -/
theorem orderInv_split (order : List String) (hinv : orderInv order) :
    order = order.dropLast ++ ["evil"] ∧ "evil" ∉ order.dropLast ∧
      order.dropLast.Nodup := by
  obtain ⟨hne, hlast, hnodup⟩ := hinv
  have hsplit : order = order.dropLast ++ ["evil"] := by
    conv_lhs => rw [← List.dropLast_append_getLast hne]
    rw [List.getLast_eq_iff_getLast?_eq_some hne |>.mpr hlast]
  constructor
  · exact hsplit
  · have hnd : (order.dropLast ++ ["evil"]).Nodup := by rw [← hsplit]; exact hnodup
    rw [List.nodup_append] at hnd
    refine ⟨?_, hnd.1⟩
    intro hmem
    exact hnd.2.2 hmem (List.mem_singleton_self "evil")

/-- C6 (amended): the initial order `["evil"]` satisfies the invariant;
advancing the turn never changes the order; joining, when the
participant is absent from the order, inserts it immediately before the
final `"evil"` slot and preserves the invariant; the clear-selection
command removes exactly the leaving participant's own entry and
preserves the invariant **provided the caller has an entry among the
non-`"evil"` slots** — a caller without an entry instead removes the
last entry, i.e. `"evil"` (see the counterexample). -/
theorem C6_turn_order (g : GameState) (env : Env) (order : List String)
    (pid : String) :
    orderInv ["evil"] ∧
    (nextTurn g env).playerOrder = g.playerOrder ∧
    (orderInv order → pid ∉ order →
      joinGamePlayerOrder order pid = order.dropLast ++ pid :: ["evil"] ∧
      orderInv (joinGamePlayerOrder order pid)) ∧
    (orderInv g.playerOrder → pid ∈ g.playerOrder.dropLast →
      (clearType g pid).playerOrder = g.playerOrder.erase pid ∧
      orderInv ((clearType g pid).playerOrder)) := by
  refine ⟨by decide, nextTurnAux_playerOrder env _ g, ?_, ?_⟩
  · intro hinv hnot
    obtain ⟨hsplit, hevil, hnodup⟩ := orderInv_split order hinv
    have hlen : order.length - 1 = order.dropLast.length := by
      conv_lhs => rw [hsplit]
      simp
    have hins : joinGamePlayerOrder order pid = order.dropLast ++ pid :: ["evil"] := by
      unfold joinGamePlayerOrder
      rw [if_neg hnot]
      conv_lhs => rw [hsplit]
      have hl2 : (order.dropLast ++ ["evil"]).length - 1 = order.dropLast.length := by
        simp
      rw [hl2]
      exact insertIdx_at_append order.dropLast ["evil"] pid
    refine ⟨hins, ?_⟩
    have hpidev : pid ≠ "evil" := by
      intro h
      apply hnot
      rw [hsplit, h]
      simp
    have hpidfront : pid ∉ order.dropLast := by
      intro h
      apply hnot
      rw [hsplit]
      exact List.mem_append_left _ h
    rw [hins]
    refine ⟨by simp, ?_, ?_⟩
    · rw [show order.dropLast ++ pid :: ["evil"] =
        (order.dropLast ++ [pid]) ++ ["evil"] by simp]
      exact List.getLast?_concat _
    · rw [List.nodup_append]
      refine ⟨hnodup, by simp [hpidev], ?_⟩
      intro a ha hb
      have hab : a = pid ∨ a = "evil" := by simpa using hb
      rcases hab with rfl | rfl
      · exact hpidfront ha
      · exact hevil ha
  · intro hinv hmem
    obtain ⟨hsplit, hevil, hnodup⟩ := orderInv_split g.playerOrder hinv
    have hmemall : pid ∈ g.playerOrder := by
      rw [hsplit]; exact List.mem_append_left _ hmem
    have hclear : (clearType g pid).playerOrder = g.playerOrder.erase pid := by
      unfold clearType spliceRemove
      simp only []
      rw [if_pos hmemall]
    refine ⟨hclear, ?_⟩
    rw [hclear]
    have herase : g.playerOrder.erase pid = g.playerOrder.dropLast.erase pid ++ ["evil"] := by
      conv_lhs => rw [hsplit]
      exact List.erase_append_left _ hmem
    rw [herase]
    refine ⟨by simp, ?_, ?_⟩
    · rw [show g.playerOrder.dropLast.erase pid ++ ["evil"] =
        (g.playerOrder.dropLast.erase pid) ++ ["evil"] from rfl]
      exact List.getLast?_concat _
    · rw [List.nodup_append]
      refine ⟨hnodup.erase pid, by simp, ?_⟩
      intro a ha hb
      have hab : a = "evil" := by simpa using hb
      subst hab
      exact hevil (List.mem_of_mem_erase ha)

/-- C6, counterexample: on the concrete state whose order is
`["p1", "evil"]`, the clear-selection command issued by the non-joined
participant `"p2"` removes the `"evil"` entry — not the leaver's own
entry (it has none) — breaking the invariant. -/
theorem C6_counterexample :
    (clearType baseState "p2").playerOrder = ["p1"] ∧
    ¬ orderInv ((clearType baseState "p2").playerOrder) := by
  decide

/-- C6, witness: instantiating the amended theorem on the concrete
order `["p1", "evil"]`: joining `"p2"` yields `["p1", "p2", "evil"]`,
and `"p1"` clearing its selection yields `["evil"]`. -/
theorem C6_turn_order_witness :
    (nextTurn baseState baseEnv).playerOrder = ["p1", "evil"] ∧
    joinGamePlayerOrder ["p1", "evil"] "p2" = ["p1", "p2", "evil"] ∧
    (clearType baseState "p1").playerOrder = ["evil"] := by
  have h := C6_turn_order baseState baseEnv ["p1", "evil"] "p2"
  have h2 := C6_turn_order baseState baseEnv ["p1", "evil"] "p1"
  refine ⟨by simpa using h.2.1, ?_, ?_⟩
  · have := (h.2.2.1 (by decide) (by decide)).1
    simpa using this
  · have := (h2.2.2.2 (by decide) (by decide)).1
    simpa using this

/-! ## C8 and C9: the Evil Turn Planner -/

@[simp] theorem evilTurnMax_addGameEvent (g : GameState) (a : Int)
    (e : EventType) (dl : Nat) (x y v : Int) (it : Option String) :
    (addGameEvent g a e dl x y v it).evilTurnMax = g.evilTurnMax := rfl

@[simp] theorem evilTurnMax_updDungeon (g : GameState) (i : Nat)
    (f : Dungeon → Dungeon) :
    (updDungeon g i f).evilTurnMax = g.evilTurnMax := rfl

@[simp] theorem evilTurnMax_setActor (g : GameState) (i : Nat) (a : Actor) :
    (setActor g i a).evilTurnMax = g.evilTurnMax := rfl

@[simp] theorem whoseTurn_addGameEvent (g : GameState) (a : Int)
    (e : EventType) (dl : Nat) (x y v : Int) (it : Option String) :
    (addGameEvent g a e dl x y v it).whoseTurn = g.whoseTurn := rfl

@[simp] theorem currentActivity_addGameEvent (g : GameState) (a : Int)
    (e : EventType) (dl : Nat) (x y v : Int) (it : Option String) :
    (addGameEvent g a e dl x y v it).currentActivity = g.currentActivity := rfl

@[simp] theorem currentActivity_updDungeon (g : GameState) (i : Nat)
    (f : Dungeon → Dungeon) :
    (updDungeon g i f).currentActivity = g.currentActivity := rfl

@[simp] theorem currentActivity_setActor (g : GameState) (i : Nat) (a : Actor) :
    (setActor g i a).currentActivity = g.currentActivity := rfl

@[simp] theorem dungeons_setActor (g : GameState) (i : Nat) (a : Actor) :
    (setActor g i a).dungeons =
      g.dungeons.map (fun d => if d.id = i then
        { d with actors := d.actors.map (fun b => if b.id = a.id then a else b) }
        else d) := rfl

/-- C8: when the turn rotates onto the `"evil"` slot the budget is set
to 100; while heroes remain and the decremented budget stays positive,
a planner invocation with a non-empty eligible set decreases the budget
by exactly one (whatever action it plans); and when the decrement drives
the budget to zero, the planner is exactly `nextTurn` applied to the
decremented state — a forced advance with no monster action that tick. -/
theorem C8_evil_budget (g : GameState) (env : Env) :
    (g.playerOrder.getD (nextTurnIndex g) "" = "evil" →
      (nextTurn g env).evilTurnMax = 100 ∧ (nextTurn g env).whoseTurn = "evil") ∧
    (∀ monster rest, (heroesOf g).isEmpty = false → ¬ g.evilTurnMax - 1 ≤ 0 →
      sortedEligible { g with evilTurnMax := g.evilTurnMax - 1 } env =
        monster :: rest →
      (takeEvilTurn g env).evilTurnMax = g.evilTurnMax - 1) ∧
    ((heroesOf g).isEmpty = false → g.evilTurnMax - 1 ≤ 0 →
      takeEvilTurn g env =
        nextTurn { g with evilTurnMax := g.evilTurnMax - 1 } env) := by
  refine ⟨?_, ?_, ?_⟩
  · intro h
    unfold nextTurn
    simp only [nextTurnAux]
    rw [h]
    simp [addGameEvent]
  · intro monster rest hher hbud hsort
    unfold takeEvilTurn
    rw [hher]
    simp only [Bool.false_eq_true, if_false]
    rw [if_neg hbud, hsort]
    split
    · next heq => simp at heq
    · split
      · simp
      · split
        · split <;> simp
        · split
          · split <;> simp
          · simp
  · intro hher hbud
    unfold takeEvilTurn
    rw [hher]
    simp only [Bool.false_eq_true, if_false]
    rw [if_pos hbud]

/-- C8, witness: on `baseState` the rotation lands on `"evil"` and sets
the budget to 100; on `c8state` (budget 5, one eligible monster, no
legal moves) the planner leaves the budget at 4; on `c8state1`
(budget 1) the planner equals a forced `nextTurn` on the decremented
state. -/
theorem C8_evil_budget_witness :
    (nextTurn baseState baseEnv).evilTurnMax = 100 ∧
    (takeEvilTurn c8state c8env).evilTurnMax = 4 ∧
    takeEvilTurn c8state1 c8env =
      nextTurn { c8state1 with evilTurnMax := 0 } c8env := by
  refine ⟨((C8_evil_budget baseState baseEnv).1 (by decide)).1, ?_, ?_⟩
  · have h := (C8_evil_budget c8state c8env).2.1 c8monster []
      (by decide) (by decide) (by decide)
    rw [h]
    decide
  · have h := (C8_evil_budget c8state1 c8env).2.2 (by decide) (by decide)
    rw [h]
    rw [show c8state1.evilTurnMax - 1 = 0 by decide]

/-- C9, counterexample: the claim says one of the monster's actions is
consumed exactly when a legal move targets the adjacent hero's cell.  On
`c9state`/`c9env` the monster's only legal move misses the hero's cell:
no Activity is started, yet the monster's action is still consumed
(`monster.actions--` sits outside the `if (attackMove)` block). -/
theorem C9_counterexample :
    (takeEvilTurn c9state c9env).currentActivity = none ∧
    getActorById (takeEvilTurn c9state c9env) 1 7 =
      some { c9monster with actions := 0 } := by
  decide

/-- C9 (amended): when the planner's selected monster has an adjacent
hero and a non-empty legal-move set, an attack Activity at the hero's
cell is started precisely when some legal move targets that cell (none
is started otherwise), but one action is consumed in **either** case —
the decrement is unconditional once an adjacent hero and any legal move
exist. -/
theorem C9_attack_consumes_action (g : GameState) (env : Env)
    (monster hero : Actor) (rest : List Actor)
    (hher : (heroesOf g).isEmpty = false)
    (hbud : ¬ g.evilTurnMax - 1 ≤ 0)
    (hsort : sortedEligible (evilDecremented g) env = monster :: rest)
    (hmoves : (env.calcMoves (evilDecremented g) monster).isEmpty = false)
    (hadj : env.getAdjacentHero (evilWithMoves g env monster)
      monster.dungeonId monster = some hero) :
    (∀ am, (env.calcMoves (evilDecremented g) monster).find?
        (fun m => decide (m.x = hero.x ∧ m.y = hero.y)) = some am →
      (takeEvilTurn g env).currentActivity =
        some { dungeonId := monster.dungeonId, actorId := monster.id,
               startTime := env.now, tx := am.x, ty := am.y }) ∧
    ((env.calcMoves (evilDecremented g) monster).find?
        (fun m => decide (m.x = hero.x ∧ m.y = hero.y)) = none →
      (takeEvilTurn g env).currentActivity = g.currentActivity) ∧
    (takeEvilTurn g env).dungeons =
      (setActor g monster.dungeonId
        { monster with actions := monster.actions - 1 }).dungeons := by
  simp only [evilWithMoves, evilDecremented] at hsort hmoves hadj ⊢
  unfold takeEvilTurn
  rw [hher]
  simp only [Bool.false_eq_true, if_false]
  rw [if_neg hbud, hsort]
  split
  · next heq => simp at heq
  · next m r heq =>
    injection heq with h1 h2
    subst h1
    subst h2
    rw [if_neg (by simp [hmoves]), hadj]
    split
    · next hero' heqh =>
      injection heqh with heqh'
      subst heqh'
      refine ⟨?_, ?_, ?_⟩
      · intro am ham
        split
        · next am' heq =>
          have h3 : some am' = some am := Eq.trans (Eq.symm heq) ham
          injection h3 with h4
          subst h4
          simp
        · next heq =>
          exact absurd (Eq.trans (Eq.symm heq) ham) (by simp)
      · intro hnone
        split
        · next am' heq =>
          exact absurd (Eq.trans (Eq.symm heq) hnone) (by simp)
        · next heq =>
          simp
      · split <;> simp [setActor, updDungeon]
    · next heqh => exact Option.noConfusion heqh

/-- C9, witness: with a legal move onto the hero's cell an attack
Activity at that cell is started; with only the missing move the
activity stays clear while the action is consumed. -/
theorem C9_attack_consumes_action_witness :
    (takeEvilTurn c9state c9env2).currentActivity =
      some { dungeonId := 1, actorId := 7, startTime := 1000, tx := 1, ty := 1 } ∧
    (takeEvilTurn c9state c9env).currentActivity = none ∧
    (takeEvilTurn c9state c9env).dungeons =
      (setActor c9state 1 { c9monster with actions := 0 }).dungeons := by
  have h2 := C9_attack_consumes_action c9state c9env2 c9monster c9hero []
    (by decide) (by decide) (by decide) (by decide) (by decide)
  have h1 := C9_attack_consumes_action c9state c9env c9monster c9hero []
    (by decide) (by decide) (by decide) (by decide) (by decide)
  refine ⟨?_, ?_, ?_⟩
  · have := h2.1 c9moveAtk (by decide)
    simpa using this
  · have := h1.2.1 (by decide)
    simpa using this
  · have := h1.2.2
    simpa using this

/-! ## C10: in-flight activity whose actor has vanished -/

/-- C10: when an activity exists, its dungeon resolves, but no actor in
that dungeon carries the activity's actor id, one executor step returns
`true` and changes nothing but the `lastUpdate` stamp — no events, the
activity left in place; consequently a full tick (when a step interval
has elapsed and no pruning applies) only clears the per-tick event list
and stamps `lastUpdate`, skipping all turn logic. -/
theorem C10_missing_actor_noop (g : GameState) (env : Env) (act : Activity)
    (d : Dungeon)
    (hact : g.currentActivity = some act)
    (hd : getDungeonById g act.dungeonId = some d)
    (hnone : d.actors.find? (fun a => a.id = act.actorId) = none) :
    applyCurrentActivity g env = (true, { g with lastUpdate := env.now }) ∧
    (g.dungeons.length ≤ 2 → ((env.now : ℚ) - (g.lastUpdate : ℚ)) > 1000 / 3 →
      update g env = { g with events := [], lastUpdate := env.now }) := by
  have key : ∀ g' : GameState, g'.currentActivity = some act →
      g'.dungeons = g.dungeons →
      applyCurrentActivity g' env = (true, { g' with lastUpdate := env.now }) := by
    intro g' hact' hdun
    have hd' : getDungeonById { g' with lastUpdate := env.now } act.dungeonId =
        some d := by
      rw [getDungeonById_congr { g' with lastUpdate := env.now } g act.dungeonId
        (by simpa using hdun)]
      exact hd
    unfold applyCurrentActivity
    split
    · next heq => exact Option.noConfusion (hact'.symm.trans heq)
    · next act1 heq =>
      have hac : act = act1 := by
        have h2 := hact'.symm.trans heq
        injection h2
      subst hac
      dsimp only []
      split
      · next heq2 => exact Option.noConfusion ((Eq.symm heq2).trans hd')
      · next dungeon heq2 =>
        have hdd : dungeon = d := by
          have h2 := (Eq.symm heq2).trans hd'
          injection h2
        subst hdd
        rw [hnone]
  refine ⟨key g hact rfl, ?_⟩
  intro hlen helapsed
  unfold update
  dsimp only []
  rw [if_neg (by omega : ¬ g.dungeons.length > 2)]
  dsimp only []
  rw [if_pos helapsed]
  rw [key { g with events := [] } (by simpa using hact) rfl]
  rfl

/-- C10, witness: the concrete state `c10state` carries an activity for
the vanished actor 99; the executor returns `true` touching only
`lastUpdate`, and a full tick only clears events and stamps the clock. -/
theorem C10_missing_actor_noop_witness :
    applyCurrentActivity c10state baseEnv =
      (true, { c10state with lastUpdate := 1000 }) ∧
    update c10state baseEnv = { c10state with events := [], lastUpdate := 1000 } := by
  have h := C10_missing_actor_noop c10state baseEnv
    { dungeonId := 1, actorId := 99, startTime := 0, tx := 0, ty := 0 }
    c5dungeon (by decide) (by decide) (by decide)
  refine ⟨by simpa using h.1, ?_⟩
  have := h.2 (by decide) (by norm_num [c10state, baseState, baseEnv])
  simpa using this

/-! ## C4: the stairs-down dungeon transition -/

/-- C4, counterexample: the claim says the new dungeon is created at
level `L+1`.  On the concrete level-1 dungeon `c4dungeon`, a hero
completing its activity on the stairs centre triggers the transition —
exactly one dungeon is created and the hero is relocated into it with
the owning participant's reference updated — but the created dungeon has
level 3, not 2: the code computes `dungeonIndex = dungeon.level + 1` and
then generates and looks up `dungeonIndex + 1`. -/
theorem C4_counterexample :
    ((applyCurrentActivity c4state c4env).2.dungeons.map Dungeon.level = [1, 3]) ∧
    (∀ dd ∈ (applyCurrentActivity c4state c4env).2.dungeons, dd.level ≠ 2) ∧
    ((lookupInfo (applyCurrentActivity c4state c4env).2 "p1").map
      PlayerInfo.dungeonId = some 93) ∧
    ((dungeonActors (applyCurrentActivity c4state c4env).2 93).map Actor.id = [10]) := by
  decide

@[simp] theorem playerInfo_addGameEvent (g : GameState) (a : Int)
    (e : EventType) (dl : Nat) (x y v : Int) (it : Option String) :
    (addGameEvent g a e dl x y v it).playerInfo = g.playerInfo := rfl

@[simp] theorem playerInfo_updDungeon (g : GameState) (i : Nat)
    (f : Dungeon → Dungeon) :
    (updDungeon g i f).playerInfo = g.playerInfo := rfl

@[simp] theorem playerInfo_setActor (g : GameState) (i : Nat) (a : Actor) :
    (setActor g i a).playerInfo = g.playerInfo := rfl

/-- `saveGame` touches only the persisted save slots. -/
theorem saveGame_frame (pid : String) (idx : Nat) (g : GameState) (env : Env) :
    (saveGame pid idx g env).dungeons = g.dungeons ∧
    (saveGame pid idx g env).playerInfo = g.playerInfo := by
  unfold saveGame saveGameCore
  split
  · split
    · split <;> exact ⟨rfl, rfl⟩
    · exact ⟨rfl, rfl⟩
  · split <;> exact ⟨rfl, rfl⟩

/-- Appending to a list whose prefix has no match makes `find?` hit the
appended element when it matches. -/
theorem find?_append_singleton {p : Dungeon → Bool} (l : List Dungeon)
    (x : Dungeon) (hl : l.find? p = none) (hx : p x = true) :
    (l ++ [x]).find? p = some x := by
  induction l with
  | nil => simp [List.find?, hx]
  | cons a as ih =>
    rw [List.find?_cons] at hl
    rw [List.cons_append, List.find?_cons]
    cases hpa : p a
    · simp only [hpa] at hl ⊢
      exact ih hl
    · simp only [hpa] at hl
      exact Option.noConfusion hl

/-- The id list of the dungeons survives an id-preserving update. -/
theorem dungeons_map_id_updDungeon (g : GameState) (i : Nat)
    (f : Dungeon → Dungeon) (hf : ∀ d, (f d).id = d.id) :
    (updDungeon g i f).dungeons.map Dungeon.id = g.dungeons.map Dungeon.id := by
  unfold updDungeon
  rw [List.map_map]
  apply List.map_congr_left
  intro d _
  simp only [Function.comp]
  split
  · exact hf d
  · rfl

/-- `getRoomAt` only reads the room list. -/
theorem getRoomAt_rooms (d1 d2 : Dungeon) (x y : Int)
    (h : d1.rooms = d2.rooms) : getRoomAt d1 x y = getRoomAt d2 x y := by
  unfold getRoomAt; rw [h]

/-- The moved actor keeps its identity, owner and faction, and lands on
the step's cell. -/
theorem moveActor_fields (actor : Actor) (step : GameMove) (env : Env) :
    (moveActor actor step env).x = step.x ∧
    (moveActor actor step env).y = step.y ∧
    (moveActor actor step env).id = actor.id ∧
    (moveActor actor step env).good = actor.good ∧
    (moveActor actor step env).playerId = actor.playerId := by
  unfold moveActor
  dsimp only []
  split <;> split <;> exact ⟨rfl, rfl, rfl, rfl, rfl⟩

/-- The `move` branch of the step effect, as one equation. -/
theorem applyStepEffect_move (g : GameState) (dId : Nat) (actor : Actor)
    (step : GameMove) (env : Env) (hm : step.moveKind = .move) :
    applyStepEffect g dId actor step env =
      (addGameEvent (setActor g dId (moveActor actor step env))
        (actor.id : Int) .step 0, moveActor actor step env) := by
  unfold applyStepEffect
  rw [hm]

/-- The executor on a completing step: stamp the clock, apply the step
effect, run the stairs check, clear the activity and recalculate moves. -/
theorem applyCurrentActivity_completes (g : GameState) (env : Env)
    (act : Activity) (d : Dungeon) (actor : Actor) (step : GameMove)
    (hact : g.currentActivity = some act)
    (hd : getDungeonById g act.dungeonId = some d)
    (hfind : d.actors.find? (fun a => a.id = act.actorId) = some actor)
    (hstep : env.findNextStep { g with lastUpdate := env.now } actor
      act.tx act.ty = some step)
    (hdone : step.x = act.tx ∧ step.y = act.ty) :
    applyCurrentActivity g env =
      (true,
        let r1 := applyStepEffect { g with lastUpdate := env.now }
          act.dungeonId actor step env
        let r2 := stairsTransition r1.1 act.dungeonId r1.2 env
        let g3 := { r2.1 with currentActivity := none }
        { g3 with possibleMoves := env.calcMoves g3 r2.2 }) := by
  have hd' : getDungeonById { g with lastUpdate := env.now } act.dungeonId =
      some d := by
    rw [getDungeonById_congr { g with lastUpdate := env.now } g act.dungeonId rfl]
    exact hd
  unfold applyCurrentActivity
  split
  · next heq => exact Option.noConfusion (hact.symm.trans heq)
  · next act1 heq =>
    have hac : act = act1 := by
      have h2 := hact.symm.trans heq
      injection h2
    subst hac
    dsimp only []
    split
    · next heq2 => exact Option.noConfusion ((Eq.symm heq2).trans hd')
    · next dungeon heq2 =>
      have hdd : dungeon = d := by
        have h2 := (Eq.symm heq2).trans hd'
        injection h2
      subst hdd
      rw [hfind]
      split
      · next heqA => exact Option.noConfusion heqA
      · next actor1 heqA =>
        have ha : actor = actor1 := by injection heqA
        subst ha
        split
        · next heq3 => exact Option.noConfusion ((Eq.symm heq3).trans hstep)
        · next step1 heq3 =>
          have hs : step1 = step := by
            have h2 := (Eq.symm heq3).trans hstep
            injection h2
          subst hs
          rw [if_pos hdone]

/-- `startDungeon` when the next dungeon, its start room and a free cell
all resolve: one equation describing the relocation. -/
theorem startDungeon_spec (g : GameState) (actor : Actor) (nextDId oldDId : Nat)
    (nd : Dungeon) (startRoom : Room) (env : Env)
    (hnd : getDungeonById g nextDId = some nd)
    (hsr : nd.rooms.find? (fun r => r.start) = some startRoom)
    (hcells : ¬ startCells nd startRoom env = []) :
    startDungeon g actor nextDId oldDId env =
      (let newActor := relocatedActor actor nextDId
         (startCellChoice (startCells nd startRoom env) env)
       (addGameEvent
         { updDungeon
             (updDungeon g oldDId (fun dd =>
               { dd with actors := spliceRemove dd.actors actor }))
             nextDId (fun dd => { dd with actors := dd.actors ++ [newActor] }) with
           playerInfo := g.playerInfo.map (fun kv =>
             if kv.2.actorId = actor.id then
               (kv.1, { kv.2 with dungeonId := nextDId }) else kv) }
         (newActor.id : Int) .stairs 0 actor.x actor.y (oldDId : Int),
        newActor)) := by
  unfold startDungeon
  split
  · next heq => exact Option.noConfusion ((Eq.symm heq).trans hnd)
  · next nd1 heq =>
    have h1 : nd1 = nd := by
      have h2 := (Eq.symm heq).trans hnd
      injection h2
    subst h1
    split
    · next heq2 => exact Option.noConfusion ((Eq.symm heq2).trans hsr)
    · next sr1 heq2 =>
      have h3 : sr1 = startRoom := by
        have h2 := (Eq.symm heq2).trans hsr
        injection h2
      subst h3
      rw [if_neg hcells]
      rfl

/-- `stairsTransition` when the hero stands on the centre of a
stairs-down room and no dungeon of level `level + 2` exists yet: one
equation describing the lazily generated dungeon and the hand-off to
`startDungeon`. -/
theorem stairsTransition_fires (gs : GameState) (dId : Nat) (a : Actor)
    (d1 : Dungeon) (room : Room) (env : Env)
    (hd : getDungeonById gs dId = some d1)
    (hroom : getRoomAt d1 a.x a.y = some room)
    (hgood : a.good = true) (hstairs : room.stairsDown = true)
    (hcx : room.x + Int.ediv room.width 2 = a.x)
    (hcy : room.y + Int.ediv room.height 2 = a.y)
    (hnone : gs.dungeons.find? (fun dd => decide (dd.level = d1.level + 1 + 1)) = none)
    (hglvl : (env.gen (d1.level + 1 + 1)).level = d1.level + 1 + 1) :
    stairsTransition gs dId a env =
      (let g1 : GameState :=
        { gs with dungeons := gs.dungeons ++ [env.gen (d1.level + 1 + 1)] }
       let g2 : GameState := match a.playerId with
         | some pid => saveGame pid (d1.level + 1) g1 env
         | none => g1
       startDungeon g2 a (env.gen (d1.level + 1 + 1)).id dId env) := by
  unfold stairsTransition
  split
  · next heq => exact Option.noConfusion ((Eq.symm heq).trans hd)
  · next dd heq =>
    have h1 : d1 = dd := by
      have h2 := hd.symm.trans heq
      injection h2
    subst h1
    split
    · next heq2 => exact Option.noConfusion ((Eq.symm heq2).trans hroom)
    · next room1 heq2 =>
      have h3 : room = room1 := by
        have h2 := hroom.symm.trans heq2
        injection h2
      subst h3
      rw [if_pos (by simp [hgood, hstairs])]
      rw [if_pos ⟨hcx, hcy⟩]
      dsimp only []
      rw [hnone]
      rw [if_pos (show (none : Option Dungeon).isNone = true from rfl)]
      have hfind2 : ∀ gg : GameState,
          gg.dungeons = gs.dungeons ++ [env.gen (d1.level + 1 + 1)] →
          gg.dungeons.find? (fun dd => decide (dd.level = d1.level + 1 + 1)) =
            some (env.gen (d1.level + 1 + 1)) := by
        intro gg hgg
        rw [hgg]
        exact find?_append_singleton gs.dungeons _ hnone (by simp [hglvl])
      cases hpid : a.playerId with
      | some pid =>
        have hf := hfind2 (saveGame pid (d1.level + 1)
          { gs with dungeons := gs.dungeons ++ [env.gen (d1.level + 1 + 1)] } env)
          ((saveGame_frame pid (d1.level + 1) _ env).1)
        split
        · next nextD heqN =>
          have h4 : nextD = env.gen (d1.level + 1 + 1) := by
            have h2 := (Eq.symm heqN).trans hf
            injection h2
          subst h4
          rfl
        · next heqN => exact Option.noConfusion ((Eq.symm heqN).trans hf)
      | none =>
        have hf := hfind2
          { gs with dungeons := gs.dungeons ++ [env.gen (d1.level + 1 + 1)] } rfl
        split
        · next nextD heqN =>
          have h4 : nextD = env.gen (d1.level + 1 + 1) := by
            have h2 := (Eq.symm heqN).trans hf
            injection h2
          subst h4
          rfl
        · next heqN => exact Option.noConfusion ((Eq.symm heqN).trans hf)

/-- What `startDungeon` guarantees about the projections the stairs
transition cares about: dungeon ids are preserved, the destination
dungeon gains exactly the relocated actor, and every participant entry
owning the actor is repointed at the destination dungeon. -/
theorem startDungeon_post (G2 : GameState) (a : Actor) (nd : Dungeon)
    (startRoom : Room) (oldDId : Nat) (env : Env)
    (hnd : getDungeonById G2 nd.id = some nd)
    (hsr : nd.rooms.find? (fun r => r.start) = some startRoom)
    (hcells : ¬ startCells nd startRoom env = [])
    (hold : ¬ nd.id = oldDId) :
    (startDungeon G2 a nd.id oldDId env).1.dungeons.map Dungeon.id =
      G2.dungeons.map Dungeon.id ∧
    getDungeonById (startDungeon G2 a nd.id oldDId env).1 nd.id =
      some { nd with actors := nd.actors ++
        [relocatedActor a nd.id
          (startCellChoice (startCells nd startRoom env) env)] } ∧
    (startDungeon G2 a nd.id oldDId env).1.playerInfo =
      G2.playerInfo.map (fun kv => if kv.2.actorId = a.id then
        (kv.1, { kv.2 with dungeonId := nd.id }) else kv) := by
  rw [startDungeon_spec G2 a nd.id oldDId nd startRoom env hnd hsr hcells]
  dsimp only []
  refine ⟨?_, ?_, ?_⟩
  · rw [dungeons_addGameEvent]
    dsimp only []
    rw [dungeons_map_id_updDungeon
        (updDungeon G2 oldDId (fun dd =>
          { dd with actors := spliceRemove dd.actors a }))
        nd.id
        (fun dd => { dd with actors := dd.actors ++
          [relocatedActor a nd.id
            (startCellChoice (startCells nd startRoom env) env)] })
        (fun dd => rfl),
      dungeons_map_id_updDungeon G2 oldDId
        (fun dd => { dd with actors := spliceRemove dd.actors a })
        (fun dd => rfl)]
  · show getDungeonById
      (updDungeon (updDungeon G2 oldDId (fun dd =>
        { dd with actors := spliceRemove dd.actors a })) nd.id
        (fun dd => { dd with actors := dd.actors ++
          [relocatedActor a nd.id
            (startCellChoice (startCells nd startRoom env) env)] }))
      nd.id = _
    rw [getDungeonById_updDungeon (updDungeon G2 oldDId (fun dd =>
        { dd with actors := spliceRemove dd.actors a })) nd.id nd.id
      (fun dd => { dd with actors := dd.actors ++
        [relocatedActor a nd.id
          (startCellChoice (startCells nd startRoom env) env)] })
      (fun dd => rfl)]
    rw [getDungeonById_updDungeon G2 oldDId nd.id (fun dd =>
      { dd with actors := spliceRemove dd.actors a }) (fun dd => rfl)]
    rw [hnd]
    dsimp only [Option.map]
    rw [if_neg hold]
    rw [if_pos rfl]
  · rw [playerInfo_addGameEvent]

/-- C4 (amended): when a hero completes its activity standing on the
centre cell of a stairs-down room of a dungeon at level `L` and no
dungeon of level `L+2` exists yet, exactly one new dungeon is created —
at level `L+2`, not `L+1`: the code computes `dungeonIndex = L + 1` and
then generates and looks up `dungeonIndex + 1` — before the actor is
relocated into it, and the owning participant's dungeon reference is
updated to the new dungeon's id. -/
theorem C4_stairs_creates_next_dungeon (g : GameState) (env : Env)
    (act : Activity) (d : Dungeon) (actor : Actor) (step : GameMove)
    (room startRoom : Room)
    (hact : g.currentActivity = some act)
    (hd : getDungeonById g act.dungeonId = some d)
    (hfind : d.actors.find? (fun a => a.id = act.actorId) = some actor)
    (hstep : env.findNextStep { g with lastUpdate := env.now } actor
      act.tx act.ty = some step)
    (hmove : step.moveKind = .move)
    (hdx : step.x = act.tx) (hdy : step.y = act.ty)
    (hgood : actor.good = true)
    (hroom : getRoomAt d act.tx act.ty = some room)
    (hstairs : room.stairsDown = true)
    (hcx : room.x + Int.ediv room.width 2 = act.tx)
    (hcy : room.y + Int.ediv room.height 2 = act.ty)
    (hnew : ∀ dd ∈ g.dungeons, dd.level ≠ d.level + 2)
    (hglvl : (env.gen (d.level + 2)).level = d.level + 2)
    (hgid : ∀ dd ∈ g.dungeons, dd.id ≠ (env.gen (d.level + 2)).id)
    (hsr : (env.gen (d.level + 2)).rooms.find? (fun r => r.start) = some startRoom)
    (hcells : ¬ startCells (env.gen (d.level + 2)) startRoom env = []) :
    (applyCurrentActivity g env).1 = true ∧
    (applyCurrentActivity g env).2.dungeons.map Dungeon.id =
      g.dungeons.map Dungeon.id ++ [(env.gen (d.level + 2)).id] ∧
    (∃ nd, getDungeonById (applyCurrentActivity g env).2 (env.gen (d.level + 2)).id =
        some nd ∧ nd.level = d.level + 2 ∧
      ∃ a2 ∈ nd.actors, a2.id = act.actorId ∧
        a2.dungeonId = (env.gen (d.level + 2)).id) ∧
    (∀ kv ∈ (applyCurrentActivity g env).2.playerInfo,
      kv.2.actorId = act.actorId → kv.2.dungeonId = (env.gen (d.level + 2)).id) := by
  obtain ⟨hax, hay, haid, hagood, -⟩ := moveActor_fields actor step env
  have hid : d.id = act.dungeonId := getDungeonById_id g act.dungeonId d hd
  have hdmem : d ∈ g.dungeons := List.mem_of_find?_eq_some hd
  have hactid0 := List.find?_some hfind
  have hactid : actor.id = act.actorId := of_decide_eq_true hactid0
  have h22 : d.level + 1 + 1 = d.level + 2 := by omega
  have hgen21 : env.gen (d.level + 1 + 1) = env.gen (d.level + 2) := by rw [h22]
  have hA := applyCurrentActivity_completes g env act d actor step hact hd hfind
    hstep ⟨hdx, hdy⟩
  rw [applyStepEffect_move { g with lastUpdate := env.now } act.dungeonId actor
    step env hmove] at hA
  dsimp only [] at hA
  -- the post-move state and dungeon
  have hd1 : getDungeonById
      (addGameEvent (setActor { g with lastUpdate := env.now } act.dungeonId
        (moveActor actor step env)) (actor.id : Int) .step 0) act.dungeonId =
      some { d with actors := d.actors.map (fun b =>
        if b.id = (moveActor actor step env).id then moveActor actor step env
        else b) } := by
    rw [getDungeonById_congr
      (addGameEvent (setActor { g with lastUpdate := env.now } act.dungeonId
        (moveActor actor step env)) (actor.id : Int) .step 0)
      (setActor { g with lastUpdate := env.now } act.dungeonId
        (moveActor actor step env)) act.dungeonId rfl]
    unfold setActor
    rw [getDungeonById_updDungeon { g with lastUpdate := env.now } act.dungeonId
      act.dungeonId
      (fun dd => { dd with actors := dd.actors.map (fun b =>
        if b.id = (moveActor actor step env).id then moveActor actor step env
        else b) })
      (fun dd => rfl)]
    rw [getDungeonById_congr { g with lastUpdate := env.now } g act.dungeonId rfl,
      hd]
    dsimp only [Option.map]
    rw [if_pos hid]
  have hroom1 : getRoomAt
      { d with actors := d.actors.map (fun b =>
        if b.id = (moveActor actor step env).id then moveActor actor step env
        else b) } (moveActor actor step env).x (moveActor actor step env).y =
      some room := by
    rw [getRoomAt_rooms { d with actors := d.actors.map (fun b =>
        if b.id = (moveActor actor step env).id then moveActor actor step env
        else b) } d (moveActor actor step env).x (moveActor actor step env).y rfl,
      hax, hay, hdx, hdy]
    exact hroom
  have hgood1 : (moveActor actor step env).good = true := by
    rw [hagood]; exact hgood
  have hcx1 : room.x + Int.ediv room.width 2 = (moveActor actor step env).x := by
    rw [hax, hdx]; exact hcx
  have hcy1 : room.y + Int.ediv room.height 2 = (moveActor actor step env).y := by
    rw [hay, hdy]; exact hcy
  have hnone1 : (addGameEvent (setActor { g with lastUpdate := env.now }
      act.dungeonId (moveActor actor step env)) (actor.id : Int) .step
      0).dungeons.find? (fun dd => decide (dd.level =
        ({ d with actors := d.actors.map (fun b =>
          if b.id = (moveActor actor step env).id then moveActor actor step env
          else b) } : Dungeon).level + 1 + 1)) = none := by
    apply List.find?_eq_none.mpr
    intro x hx
    simp only [decide_eq_true_eq]
    have hx' : x ∈ g.dungeons.map (fun dd =>
        if dd.id = act.dungeonId then
          { dd with actors := dd.actors.map (fun b =>
            if b.id = (moveActor actor step env).id then moveActor actor step env
            else b) }
        else dd) := hx
    obtain ⟨dd0, hdd0, rfl⟩ := List.mem_map.mp hx'
    have hlvl : (if dd0.id = act.dungeonId then
        ({ dd0 with actors := dd0.actors.map (fun b =>
          if b.id = (moveActor actor step env).id then moveActor actor step env
          else b) } : Dungeon)
        else dd0).level = dd0.level := by
      split <;> rfl
    rw [hlvl]
    have hne := hnew dd0 hdd0
    omega
  have hglvl1 : (env.gen (({ d with actors := d.actors.map (fun b =>
      if b.id = (moveActor actor step env).id then moveActor actor step env
      else b) } : Dungeon).level + 1 + 1)).level =
      ({ d with actors := d.actors.map (fun b =>
        if b.id = (moveActor actor step env).id then moveActor actor step env
        else b) } : Dungeon).level + 1 + 1 := by
    show (env.gen (d.level + 1 + 1)).level = d.level + 1 + 1
    rw [hgen21, hglvl, h22]
  have hST := stairsTransition_fires
    (addGameEvent (setActor { g with lastUpdate := env.now } act.dungeonId
      (moveActor actor step env)) (actor.id : Int) .step 0)
    act.dungeonId (moveActor actor step env)
    { d with actors := d.actors.map (fun b =>
      if b.id = (moveActor actor step env).id then moveActor actor step env
      else b) } room env hd1 hroom1 hgood1 hstairs hcx1 hcy1 hnone1 hglvl1
  have hG1dun : ∀ G1 : GameState,
      G1.dungeons = (addGameEvent (setActor { g with lastUpdate := env.now }
        act.dungeonId (moveActor actor step env)) (actor.id : Int) .step
        0).dungeons ++ [env.gen (d.level + 2)] →
      getDungeonById G1 (env.gen (d.level + 2)).id =
        some (env.gen (d.level + 2)) := by
    intro G1 hG1
    unfold getDungeonById
    rw [hG1]
    apply find?_append_singleton
    · rw [dungeons_addGameEvent, dungeons_setActor]
      apply List.find?_eq_none.mpr
      intro x hx
      obtain ⟨dd0, hdd0, rfl⟩ := List.mem_map.mp hx
      simp only [decide_eq_true_eq]
      have hxid : (if dd0.id = act.dungeonId then
          { dd0 with actors := dd0.actors.map (fun b =>
            if b.id = (moveActor actor step env).id then moveActor actor step env
            else b) } else dd0).id = dd0.id := by
        split <;> rfl
      rw [hxid]
      exact hgid dd0 hdd0
    · simp
  have hold : ¬ (env.gen (d.level + 2)).id = act.dungeonId :=
    fun h => hgid d hdmem (hid.trans h.symm)
  cases hpid : (moveActor actor step env).playerId with
  | none =>
    have hST2 : stairsTransition (addGameEvent (setActor { g with
          lastUpdate := env.now } act.dungeonId (moveActor actor step env))
          (actor.id : Int) .step 0) act.dungeonId (moveActor actor step env)
          env =
        startDungeon
          { addGameEvent (setActor { g with lastUpdate := env.now }
              act.dungeonId (moveActor actor step env)) (actor.id : Int) .step
              0 with
            dungeons := (addGameEvent (setActor { g with lastUpdate := env.now }
              act.dungeonId (moveActor actor step env)) (actor.id : Int) .step
              0).dungeons ++ [env.gen (d.level + 2)] }
          (moveActor actor step env) (env.gen (d.level + 2)).id act.dungeonId
          env := by
      rw [hST, hpid]
    rw [hST2] at hA
    obtain ⟨hp1, hp2, hp3⟩ := startDungeon_post
      { addGameEvent (setActor { g with lastUpdate := env.now }
          act.dungeonId (moveActor actor step env)) (actor.id : Int) .step
          0 with
        dungeons := (addGameEvent (setActor { g with lastUpdate := env.now }
          act.dungeonId (moveActor actor step env)) (actor.id : Int) .step
          0).dungeons ++ [env.gen (d.level + 2)] }
      (moveActor actor step env) (env.gen (d.level + 2)) startRoom
      act.dungeonId env
      (hG1dun { addGameEvent (setActor { g with lastUpdate := env.now }
          act.dungeonId (moveActor actor step env)) (actor.id : Int) .step
          0 with
        dungeons := (addGameEvent (setActor { g with lastUpdate := env.now }
          act.dungeonId (moveActor actor step env)) (actor.id : Int) .step
          0).dungeons ++ [env.gen (d.level + 2)] } rfl)
      hsr hcells hold
    rw [hA]
    dsimp only []
    refine ⟨rfl, ?_, ?_, ?_⟩
    · rw [hp1]
      dsimp only []
      rw [dungeons_addGameEvent, dungeons_setActor]
      dsimp only []
      rw [List.map_append, List.map_map]
      refine congrArg₂ (· ++ ·) ?_ rfl
      apply List.map_congr_left
      intro dd _
      dsimp only [Function.comp]
      split <;> rfl
    · refine ⟨_, hp2, hglvl, ?_⟩
      refine ⟨_, List.mem_append_right _ (List.Mem.head []), haid.trans hactid, rfl⟩
    · intro kv hkv heq
      rw [hp3] at hkv
      obtain ⟨kv0, hkv0, rfl⟩ := List.mem_map.mp hkv
      dsimp only [] at heq ⊢
      by_cases hc : kv0.2.actorId = (moveActor actor step env).id
      · rw [if_pos hc]
      · rw [if_neg hc] at heq
        exact absurd ((heq.trans hactid.symm).trans haid.symm) hc
  | some pid =>
    have hST2 : stairsTransition (addGameEvent (setActor { g with
          lastUpdate := env.now } act.dungeonId (moveActor actor step env))
          (actor.id : Int) .step 0) act.dungeonId (moveActor actor step env)
          env =
        startDungeon
          (saveGame pid (d.level + 1)
            { addGameEvent (setActor { g with lastUpdate := env.now }
                act.dungeonId (moveActor actor step env)) (actor.id : Int) .step
                0 with
              dungeons := (addGameEvent (setActor { g with
                lastUpdate := env.now } act.dungeonId
                (moveActor actor step env)) (actor.id : Int) .step
                0).dungeons ++ [env.gen (d.level + 2)] } env)
          (moveActor actor step env) (env.gen (d.level + 2)).id act.dungeonId
          env := by
      rw [hST, hpid]
    rw [hST2] at hA
    have hndS : getDungeonById
        (saveGame pid (d.level + 1)
          { addGameEvent (setActor { g with lastUpdate := env.now }
              act.dungeonId (moveActor actor step env)) (actor.id : Int) .step
              0 with
            dungeons := (addGameEvent (setActor { g with
              lastUpdate := env.now } act.dungeonId
              (moveActor actor step env)) (actor.id : Int) .step
              0).dungeons ++ [env.gen (d.level + 2)] } env)
        (env.gen (d.level + 2)).id = some (env.gen (d.level + 2)) := by
      rw [getDungeonById_congr
        (saveGame pid (d.level + 1)
          { addGameEvent (setActor { g with lastUpdate := env.now }
              act.dungeonId (moveActor actor step env)) (actor.id : Int) .step
              0 with
            dungeons := (addGameEvent (setActor { g with
              lastUpdate := env.now } act.dungeonId
              (moveActor actor step env)) (actor.id : Int) .step
              0).dungeons ++ [env.gen (d.level + 2)] } env)
        { addGameEvent (setActor { g with lastUpdate := env.now }
            act.dungeonId (moveActor actor step env)) (actor.id : Int) .step
            0 with
          dungeons := (addGameEvent (setActor { g with
            lastUpdate := env.now } act.dungeonId
            (moveActor actor step env)) (actor.id : Int) .step
            0).dungeons ++ [env.gen (d.level + 2)] }
        (env.gen (d.level + 2)).id
        (saveGame_frame pid (d.level + 1)
          { addGameEvent (setActor { g with lastUpdate := env.now }
              act.dungeonId (moveActor actor step env)) (actor.id : Int) .step
              0 with
            dungeons := (addGameEvent (setActor { g with
              lastUpdate := env.now } act.dungeonId
              (moveActor actor step env)) (actor.id : Int) .step
              0).dungeons ++ [env.gen (d.level + 2)] } env).1]
      exact hG1dun
        { addGameEvent (setActor { g with lastUpdate := env.now }
            act.dungeonId (moveActor actor step env)) (actor.id : Int) .step
            0 with
          dungeons := (addGameEvent (setActor { g with
            lastUpdate := env.now } act.dungeonId
            (moveActor actor step env)) (actor.id : Int) .step
            0).dungeons ++ [env.gen (d.level + 2)] } rfl
    obtain ⟨hp1, hp2, hp3⟩ := startDungeon_post
      (saveGame pid (d.level + 1)
        { addGameEvent (setActor { g with lastUpdate := env.now }
            act.dungeonId (moveActor actor step env)) (actor.id : Int) .step
            0 with
          dungeons := (addGameEvent (setActor { g with
            lastUpdate := env.now } act.dungeonId
            (moveActor actor step env)) (actor.id : Int) .step
            0).dungeons ++ [env.gen (d.level + 2)] } env)
      (moveActor actor step env) (env.gen (d.level + 2)) startRoom
      act.dungeonId env hndS hsr hcells hold
    rw [hA]
    dsimp only []
    refine ⟨rfl, ?_, ?_, ?_⟩
    · rw [hp1]
      rw [(saveGame_frame pid (d.level + 1)
        { addGameEvent (setActor { g with lastUpdate := env.now }
            act.dungeonId (moveActor actor step env)) (actor.id : Int) .step
            0 with
          dungeons := (addGameEvent (setActor { g with
            lastUpdate := env.now } act.dungeonId
            (moveActor actor step env)) (actor.id : Int) .step
            0).dungeons ++ [env.gen (d.level + 2)] } env).1]
      dsimp only []
      rw [dungeons_addGameEvent, dungeons_setActor]
      dsimp only []
      rw [List.map_append, List.map_map]
      refine congrArg₂ (· ++ ·) ?_ rfl
      apply List.map_congr_left
      intro dd _
      dsimp only [Function.comp]
      split <;> rfl
    · refine ⟨_, hp2, hglvl, ?_⟩
      refine ⟨_, List.mem_append_right _ (List.Mem.head []), haid.trans hactid, rfl⟩
    · intro kv hkv heq
      rw [hp3] at hkv
      obtain ⟨kv0, hkv0, rfl⟩ := List.mem_map.mp hkv
      dsimp only [] at heq ⊢
      by_cases hc : kv0.2.actorId = (moveActor actor step env).id
      · rw [if_pos hc]
      · rw [if_neg hc] at heq
        exact absurd ((heq.trans hactid.symm).trans haid.symm) hc

theorem C4_stairs_creates_next_dungeon_witness :
    (applyCurrentActivity c4state c4env).1 = true ∧
    (applyCurrentActivity c4state c4env).2.dungeons.map Dungeon.id =
      c4state.dungeons.map Dungeon.id ++
        [(c4env.gen (c4dungeon.level + 2)).id] ∧
    (∃ nd, getDungeonById (applyCurrentActivity c4state c4env).2
        (c4env.gen (c4dungeon.level + 2)).id = some nd ∧
      nd.level = c4dungeon.level + 2 ∧
      ∃ a2 ∈ nd.actors, a2.id = 10 ∧
        a2.dungeonId = (c4env.gen (c4dungeon.level + 2)).id) ∧
    (∀ kv ∈ (applyCurrentActivity c4state c4env).2.playerInfo,
      kv.2.actorId = 10 →
        kv.2.dungeonId = (c4env.gen (c4dungeon.level + 2)).id) :=
  C4_stairs_creates_next_dungeon c4state c4env
    { dungeonId := 1, actorId := 10, startTime := 0, tx := 3, ty := 3 }
    c4dungeon c4hero
    { x := 3, y := 3, sx := 3, sy := 2, moveKind := .move, depth := 1 }
    c4room c4genRoom
    rfl (by decide) (by decide) rfl rfl rfl rfl (by decide) (by decide) rfl
    (by decide) (by decide) (by decide) rfl (by decide) (by decide) (by decide)

/-! ## Resource-bounds preservation (§8) -/

/-- `stateBounds` only depends on the dungeon list. -/
theorem stateBounds_congr (g1 g2 : GameState) (h : g1.dungeons = g2.dungeons) :
    stateBounds g1 ↔ stateBounds g2 := by
  unfold stateBounds
  rw [h]

/-- The combat roll is never negative (`max(0, skulls - shields)`). -/
theorem rollCombat_nonneg (attacker : Actor) (target : Option Actor)
    (multiplier : Option Int) (rnd : Nat → ℚ) :
    0 ≤ rollCombat attacker target multiplier rnd := by
  cases target with
  | none => exact le_refl 0
  | some t => exact le_max_left 0 _

/-- Writing back a bounds-respecting actor keeps every actor in bounds. -/
theorem stateBounds_setActor (g : GameState) (dId : Nat) (x : Actor)
    (hB : stateBounds g) (hx : boundsOk x) :
    stateBounds (setActor g dId x) := by
  intro dd hdd a ha
  rw [dungeons_setActor] at hdd
  obtain ⟨d0, hd0, rfl⟩ := List.mem_map.mp hdd
  by_cases hc : d0.id = dId
  · rw [if_pos hc] at ha
    obtain ⟨b, hb, rfl⟩ := List.mem_map.mp ha
    by_cases hcb : b.id = x.id
    · rw [if_pos hcb]
      exact hx
    · rw [if_neg hcb]
      exact hB d0 hd0 b hb
  · rw [if_neg hc] at ha
    exact hB d0 hd0 a ha

/-- The by-id write-back never changes the multiset of actor ids. -/
theorem map_id_subst (l : List Actor) (x : Actor) :
    (l.map (fun b => if b.id = x.id then x else b)).map Actor.id =
      l.map Actor.id := by
  rw [List.map_map]
  apply List.map_congr_left
  intro b _
  dsimp only [Function.comp]
  split
  next h => exact h.symm
  next => rfl

/-- `setActor` preserves per-dungeon uniqueness of actor ids. -/
theorem idsNodup_setActor (g : GameState) (dId : Nat) (x : Actor)
    (hN : idsNodup g) : idsNodup (setActor g dId x) := by
  intro dd hdd
  rw [dungeons_setActor] at hdd
  obtain ⟨d0, hd0, rfl⟩ := List.mem_map.mp hdd
  by_cases hc : d0.id = dId
  · rw [if_pos hc]
    show ((d0.actors.map (fun b => if b.id = x.id then x else b)).map
      Actor.id).Nodup
    rw [map_id_subst]
    exact hN d0 hd0
  · rw [if_neg hc]
    exact hN d0 hd0

/-- After the write-back-then-splice sequence of a kill, every remaining
actor of the touched list satisfies the bounds: with unique ids the
erase removes the (only) written-back target, and the `splice(-1, 1)`
fallback only drops an element. -/
theorem bounds_spliceRemove_subst (l : List Actor) (t1 : Actor)
    (hl : ∀ a ∈ l, boundsOk a) (hnd : (l.map Actor.id).Nodup) :
    ∀ a ∈ spliceRemove
      (l.map (fun b => if b.id = t1.id then t1 else b)) t1, boundsOk a := by
  intro a ha
  have hndL : (l.map (fun b => if b.id = t1.id then t1 else b)).Nodup := by
    have h2 : ((l.map (fun b => if b.id = t1.id then t1 else b)).map
        Actor.id).Nodup := by
      rw [map_id_subst]
      exact hnd
    exact h2.of_map
  unfold spliceRemove at ha
  split at ha
  next hmem =>
    have h3 := (List.Nodup.mem_erase_iff hndL).mp ha
    obtain ⟨b, hb, rfl⟩ := List.mem_map.mp h3.2
    by_cases hcb : b.id = t1.id
    · exact absurd (if_pos hcb) h3.1
    · rw [if_neg hcb]
      exact hl b hb
  next hmem =>
    have h4 : a ∈ l.map (fun b => if b.id = t1.id then t1 else b) :=
      (List.dropLast_sublist _).subset ha
    obtain ⟨b, hb, rfl⟩ := List.mem_map.mp h4
    by_cases hcb : b.id = t1.id
    · have ht1mem : t1 ∈ l.map (fun c => if c.id = t1.id then t1 else c) :=
        List.mem_map.mpr ⟨b, hb, if_pos hcb⟩
      exact absurd ht1mem hmem
    · rw [if_neg hcb]
      exact hl b hb

/-- Bounds for an `updDungeon` result, given bounds for the untouched
dungeons and for the rewritten actor lists. -/
theorem stateBounds_updDungeon_of (g : GameState) (dId : Nat)
    (f : Dungeon → Dungeon)
    (hx : ∀ d ∈ g.dungeons, ¬ d.id = dId → ∀ a ∈ d.actors, boundsOk a)
    (hf : ∀ d ∈ g.dungeons, d.id = dId → ∀ a ∈ (f d).actors, boundsOk a) :
    stateBounds (updDungeon g dId f) := by
  intro dd hdd a ha
  obtain ⟨d0, hd0, rfl⟩ := List.mem_map.mp hdd
  by_cases hc : d0.id = dId
  · rw [if_pos hc] at ha
    exact hf d0 hd0 hc a ha
  · rw [if_neg hc] at ha
    exact hx d0 hd0 hc a ha

/-- Killing the actor that was just written back leaves a
bounds-respecting state, whatever the target's health. -/
theorem stateBounds_killSetActor (gb : GameState) (dId : Nat) (t1 : Actor)
    (extra : Nat) (env : Env)
    (hgb : stateBounds gb) (hngb : idsNodup gb) :
    stateBounds (kill (setActor gb dId t1) dId t1 extra env) := by
  refine (stateBounds_congr _ _
    (kill_dungeons (setActor gb dId t1) dId t1 extra env)).mpr ?_
  apply stateBounds_updDungeon_of
  · intro d hd0 hne a ha
    rw [dungeons_setActor] at hd0
    obtain ⟨d0, h0, rfl⟩ := List.mem_map.mp hd0
    by_cases hc : d0.id = dId
    · rw [if_pos hc] at hne
      exact absurd hc hne
    · rw [if_neg hc] at ha
      exact hgb d0 h0 a ha
  · intro d hd0 hid a ha
    rw [dungeons_setActor] at hd0
    obtain ⟨d0, h0, rfl⟩ := List.mem_map.mp hd0
    by_cases hc : d0.id = dId
    · rw [if_pos hc] at ha
      exact bounds_spliceRemove_subst d0.actors t1 (hgb d0 h0) (hngb d0 h0) a ha
    · rw [if_neg hc] at hid
      exact absurd hid hc

/-- The damage-then-maybe-kill tail shared by the shoot, magic and melee
branches preserves the bounds. -/
theorem stateBounds_damage_step (gb : GameState) (dId : Nat) (t : Actor)
    (dmg : Int) (extra : Nat) (env : Env)
    (hgb : stateBounds gb) (hngb : idsNodup gb) (ht : boundsOk t)
    (hd : 0 ≤ dmg) :
    stateBounds (if ({ t with health := t.health - dmg } : Actor).health ≤ 0
      then kill (setActor gb dId { t with health := t.health - dmg }) dId
        { t with health := t.health - dmg } extra env
      else setActor gb dId { t with health := t.health - dmg }) := by
  obtain ⟨ht1, ht2, ht3, ht4, ht5, ht6⟩ := ht
  split
  next hle =>
    exact stateBounds_killSetActor gb dId _ extra env hgb hngb
  next hgt =>
    have hh : ¬ (t.health - dmg ≤ 0) := hgt
    refine stateBounds_setActor gb dId _ hgb ⟨?_, ?_, ht3, ht4, ht5, ht6⟩
    · show (0 : Int) ≤ t.health - dmg
      omega
    · show t.health - dmg ≤ t.maxHealth
      omega

/-- The moved actor stays in bounds when it had a move to spend. -/
theorem boundsOk_moveActor (actor : Actor) (step : GameMove) (env : Env)
    (hA : boundsOk actor) (hm : 0 < actor.moves) :
    boundsOk (moveActor actor step env) := by
  obtain ⟨h1, h2, h3, h4, h5, h6⟩ := hA
  unfold moveActor boundsOk
  dsimp only []
  split <;> split <;> dsimp only [] <;>
    exact ⟨h1, h2, h3, h4, by omega, by omega⟩

/-- The moves-zeroing and write-back tail shared by the shoot, magic,
heal and melee branches preserves the bounds, and the returned actor is
in bounds. -/
theorem stateBounds_finish (g2 : GameState) (dId : Nat) (a1 : Actor)
    (env : Env) (hg2 : stateBounds g2) (ha1 : boundsOk a1) :
    stateBounds { setActor g2 dId (if a1.moves < a1.maxMoves
      then { a1 with moves := 0 } else a1) with
        possibleMoves := env.calcMoves (setActor g2 dId
          (if a1.moves < a1.maxMoves then { a1 with moves := 0 } else a1))
          (if a1.moves < a1.maxMoves then { a1 with moves := 0 } else a1) } ∧
    boundsOk (if a1.moves < a1.maxMoves then { a1 with moves := 0 }
      else a1) := by
  have ha2 : boundsOk (if a1.moves < a1.maxMoves then { a1 with moves := 0 }
      else a1) := by
    obtain ⟨h1, h2, h3, h4, h5, h6⟩ := ha1
    split
    · refine ⟨h1, h2, h3, h4, le_refl 0, ?_⟩
      show (0 : Int) ≤ a1.maxMoves
      omega
    · exact ⟨h1, h2, h3, h4, h5, h6⟩
  exact ⟨fun dd hdd => stateBounds_setActor g2 dId _ hg2 ha2 dd hdd, ha2⟩

/-- The `magic` branch of the step effect, as one equation. -/
theorem applyStepEffect_magic (g : GameState) (dId : Nat) (actor : Actor)
    (step : GameMove) (env : Env) (hm : step.moveKind = .magic) :
    applyStepEffect g dId actor step env =
      (let a1 := { actor with
         actions := actor.actions - 1
         magic := actor.magic - 3 }
       let g1 := setActor g dId a1
       let g2 :=
         match (getDungeonById g1 dId).bind
             (fun d => getActorAt d step.x step.y) with
         | some t =>
           let damage := rollCombat a1 (some t) (some 2) env.combatRnd
           let ga := addGameEvent g1 (a1.id : Int) .magic 0 step.x step.y
           let gb := addGameEvent ga (a1.id : Int) .damage 300 step.x step.y
             damage
           let t1 := { t with health := t.health - damage }
           let gc := setActor gb dId t1
           if t1.health ≤ 0 then kill gc dId t1 300 env else gc
         | none => g1
       let a2 := if a1.moves < a1.maxMoves then { a1 with moves := 0 } else a1
       let g3 := setActor g2 dId a2
       ({ g3 with possibleMoves := env.calcMoves g3 a2 }, a2)) := by
  unfold applyStepEffect
  rw [hm]

/-- The `heal` branch of the step effect, as one equation. -/
theorem applyStepEffect_heal (g : GameState) (dId : Nat) (actor : Actor)
    (step : GameMove) (env : Env) (hm : step.moveKind = .heal) :
    applyStepEffect g dId actor step env =
      (let a1 := { actor with
         actions := actor.actions - 1
         magic := actor.magic - 2 }
       let g1 := setActor g dId a1
       let g2 :=
         match (getDungeonById g1 dId).bind
             (fun d => getActorAt d step.x step.y) with
         | some t =>
           let h2 := t.health + 2
           let t1 := { t with health := if h2 > t.maxHealth then t.maxHealth
                                        else h2 }
           let ga := setActor g1 dId t1
           addGameEvent ga (a1.id : Int) .heal 0 step.x step.y 2
         | none => g1
       let a2 := if a1.moves < a1.maxMoves then { a1 with moves := 0 } else a1
       let g3 := setActor g2 dId a2
       ({ g3 with possibleMoves := env.calcMoves g3 a2 }, a2)) := by
  unfold applyStepEffect
  rw [hm]

/-- `nextTurn` (at any fuel) preserves the bounds invariant: the
turn-start refresh writes `moves := maxMoves`, `actions := 1` and a
magic regeneration capped at `maxMagic`. -/
theorem nextTurnAux_bounds (env : Env) (fuel : Nat) :
    ∀ g : GameState, stateBounds g → stateBounds (nextTurnAux env fuel g) := by
  induction fuel with
  | zero =>
    intro g hB
    exact hB
  | succ fuel ih =>
    intro g0 hB
    simp only [nextTurnAux]
    split
    · split
      next info hinfo =>
        split
        next newActor hna =>
          split
          · exact ih _ (fun dd hdd => hB dd hdd)
          · next hlive =>
            obtain ⟨dd1, hd1, hf1⟩ := Option.bind_eq_some.mp hna
            have hNA : boundsOk newActor :=
              hB dd1 (List.mem_of_find?_eq_some hd1) newActor
                (List.mem_of_find?_eq_some hf1)
            have ha2 : boundsOk { newActor with
                moves := newActor.maxMoves, actions := 1,
                magic := if newActor.magic < newActor.maxMagic
                         then newActor.magic + 1 else newActor.magic } := by
              obtain ⟨h1, h2, h3, h4, h5, h6⟩ := hNA
              refine ⟨h1, h2, ?_, ?_, ?_, ?_⟩
              · show (0 : Int) ≤ if newActor.magic < newActor.maxMagic
                  then newActor.magic + 1 else newActor.magic
                split <;> omega
              · show (if newActor.magic < newActor.maxMagic
                    then newActor.magic + 1 else newActor.magic) ≤
                  newActor.maxMagic
                split <;> omega
              · show (0 : Int) ≤ newActor.maxMoves
                omega
              · show newActor.maxMoves ≤ newActor.maxMoves
                exact le_refl _
            exact fun dd hdd =>
              stateBounds_setActor _ info.dungeonId _
                (fun d2 hd2 => hB d2 hd2) ha2 dd hdd
        next hna => exact fun dd hdd => hB dd hdd
      next hinfo => exact fun dd hdd => hB dd hdd
    · intro dd hdd a ha
      obtain ⟨d0, h0, rfl⟩ := List.mem_map.mp hdd
      dsimp only [] at ha
      obtain ⟨b, hb, rfl⟩ := List.mem_map.mp ha
      obtain ⟨h1, h2, h3, h4, h5, h6⟩ := hB d0 h0 b hb
      split
      · exact ⟨h1, h2, h3, h4, h5, h6⟩
      · refine ⟨h1, h2, h3, h4, ?_, ?_⟩
        · show (0 : Int) ≤ b.maxMoves
          omega
        · show b.maxMoves ≤ b.maxMoves
          exact le_refl _

/-- C7: each of the spec's listed operations preserves the resource
bounds `0 ≤ health ≤ maxHealth`, `0 ≤ magic ≤ maxMagic` and
`0 ≤ moves ≤ maxMoves` over every actor of every dungeon — the movement
step when the mover has a move left, the magic attack when the caster
has the 3 magic it consumes (including the kill-and-remove path, which
needs per-dungeon unique actor ids), the heal when the caster has the
2 magic it consumes (the restored health is capped at `maxHealth`), and
the turn-change refresh with its capped magic regeneration. -/
theorem C7_bounds_preserved (g : GameState) (env : Env) (dId : Nat)
    (actor : Actor) (step : GameMove)
    (hB : stateBounds g) (hN : idsNodup g) (hA : boundsOk actor) :
    (step.moveKind = .move → 0 < actor.moves →
      stateBounds (applyStepEffect g dId actor step env).1 ∧
      boundsOk (applyStepEffect g dId actor step env).2) ∧
    (step.moveKind = .magic → 3 ≤ actor.magic →
      stateBounds (applyStepEffect g dId actor step env).1 ∧
      boundsOk (applyStepEffect g dId actor step env).2) ∧
    (step.moveKind = .heal → 2 ≤ actor.magic →
      stateBounds (applyStepEffect g dId actor step env).1 ∧
      boundsOk (applyStepEffect g dId actor step env).2) ∧
    stateBounds (nextTurn g env) := by
  refine ⟨?_, ?_, ?_, nextTurnAux_bounds env _ g hB⟩
  · intro hmk hmv
    rw [applyStepEffect_move g dId actor step env hmk]
    dsimp only []
    have ha3 := boundsOk_moveActor actor step env hA hmv
    exact ⟨fun dd hdd => stateBounds_setActor g dId _ hB ha3 dd hdd, ha3⟩
  · intro hmk hmg
    rw [applyStepEffect_magic g dId actor step env hmk]
    dsimp only []
    have ha1 : boundsOk { actor with
        actions := actor.actions - 1
        magic := actor.magic - 3 } := by
      obtain ⟨h1, h2, h3, h4, h5, h6⟩ := hA
      refine ⟨h1, h2, ?_, ?_, h5, h6⟩
      · show (0 : Int) ≤ actor.magic - 3
        omega
      · show actor.magic - 3 ≤ actor.maxMagic
        omega
    refine stateBounds_finish _ dId _ env ?_ ha1
    split
    next t heq =>
      obtain ⟨dfound, hdf, hta⟩ := Option.bind_eq_some.mp heq
      have hg1 : stateBounds (setActor g dId { actor with
          actions := actor.actions - 1
          magic := actor.magic - 3 }) :=
        stateBounds_setActor g dId _ hB ha1
      have hng1 : idsNodup (setActor g dId { actor with
          actions := actor.actions - 1
          magic := actor.magic - 3 }) :=
        idsNodup_setActor g dId _ hN
      have hBt : boundsOk t :=
        hg1 dfound (List.mem_of_find?_eq_some hdf) t
          (List.mem_of_find?_eq_some hta)
      exact stateBounds_damage_step _ dId t _ 300 env
        (fun dd hdd => hg1 dd hdd) (fun dd hdd => hng1 dd hdd) hBt
        (rollCombat_nonneg _ _ _ _)
    next heq =>
      exact stateBounds_setActor g dId _ hB ha1
  · intro hmk hmg
    rw [applyStepEffect_heal g dId actor step env hmk]
    dsimp only []
    have ha1 : boundsOk { actor with
        actions := actor.actions - 1
        magic := actor.magic - 2 } := by
      obtain ⟨h1, h2, h3, h4, h5, h6⟩ := hA
      refine ⟨h1, h2, ?_, ?_, h5, h6⟩
      · show (0 : Int) ≤ actor.magic - 2
        omega
      · show actor.magic - 2 ≤ actor.maxMagic
        omega
    refine stateBounds_finish _ dId _ env ?_ ha1
    split
    next t heq =>
      obtain ⟨dfound, hdf, hta⟩ := Option.bind_eq_some.mp heq
      have hg1 : stateBounds (setActor g dId { actor with
          actions := actor.actions - 1
          magic := actor.magic - 2 }) :=
        stateBounds_setActor g dId _ hB ha1
      have hBt : boundsOk t :=
        hg1 dfound (List.mem_of_find?_eq_some hdf) t
          (List.mem_of_find?_eq_some hta)
      have ht1 : boundsOk { t with health :=
          if t.health + 2 > t.maxHealth then t.maxHealth
          else t.health + 2 } := by
        obtain ⟨h1, h2, h3, h4, h5, h6⟩ := hBt
        refine ⟨?_, ?_, h3, h4, h5, h6⟩
        · show (0 : Int) ≤ if t.health + 2 > t.maxHealth then t.maxHealth
            else t.health + 2
          split <;> omega
        · show (if t.health + 2 > t.maxHealth then t.maxHealth
            else t.health + 2) ≤ t.maxHealth
          split <;> omega
      exact fun dd hdd => stateBounds_setActor _ dId _ hg1 ht1 dd hdd
    next heq =>
      exact stateBounds_setActor g dId _ hB ha1

theorem C7_bounds_preserved_witness :
    stateBounds (applyStepEffect c4state 1 c4hero
      { x := 3, y := 3, sx := 3, sy := 2, moveKind := .move, depth := 1 }
      c4env).1 ∧
    boundsOk (applyStepEffect c4state 1 c4hero
      { x := 3, y := 3, sx := 3, sy := 2, moveKind := .move, depth := 1 }
      c4env).2 ∧
    stateBounds (nextTurn c4state c4env) := by
  have h := C7_bounds_preserved c4state c4env 1 c4hero
    { x := 3, y := 3, sx := 3, sy := 2, moveKind := .move, depth := 1 }
    (by decide) (by decide) (by decide)
  exact ⟨(h.1 rfl (by decide)).1, (h.1 rfl (by decide)).2, h.2.2.2⟩

end DGlee
